import Mathlib

/-!
Shallow embedding of the path-first platformer level generator
(platformer.js, tilemap.js, pather.js, skinner.js) and proofs about it.

Numbers: JavaScript floating-point numbers are modelled as rationals (ℚ);
tile indices and frame counters are integers (ℤ).  Randomness
(Math.random()) is modelled as an injected stream of rationals consumed
one value per call.  In-place mutation is modelled by explicit state
passing: every function that mutates an object returns the updated value.
-/

/-- Duration of one frame, in seconds (platformer.js line 2). -/
def dt : ℚ := 1/30

/-- Tile vocabulary (tilemap.js, the Tile enumeration), together with the
two string reservation markers used by the pather
(SOLID_RESERVATION = the string U+2580, PLAYER_RESERVATION = the string
U+00D7, pather.js lines 296-297). -/
inductive Tile where
  | none
  | solid
  | grassTopBlock
  | dirtBlock
  | exclamationBox
  | woodBox
  | pinkSlime
  | startSign
  | greenFlag
  | coin
  | playerStand
  | solidReservation
  | playerReservation
deriving DecidableEq, Repr

/-- Tile map model (tilemap.js class MapChunk): a rectangle of tiles.
The 2D array of the source is modelled as a total function from integer
coordinates; cells outside the rectangle are never read (getTileAt guards
them). -/
structure MapChunk where
  columns : ℤ
  rows : ℤ
  tiles : ℤ → ℤ → Tile

namespace MapChunk

/-- Returns the tile value at the given coordinates, or Tile.none if out
of bounds (tilemap.js getTileAt, lines 206-211). -/
def getTileAt (m : MapChunk) (x y : ℤ) : Tile :=
  if x < 0 ∨ m.columns ≤ x then Tile.none
  else if y < 0 ∨ m.rows ≤ y then Tile.none
  else m.tiles x y

/-- Place a single tile, skipping it if out of bounds (tilemap.js place,
lines 141-145). -/
def place (m : MapChunk) (tile : Tile) (x y : ℤ) : MapChunk :=
  if 0 ≤ x ∧ x < m.columns ∧ 0 ≤ y ∧ y < m.rows then
    { m with tiles := fun a b => if a = x ∧ b = y then tile else m.tiles a b }
  else m

/-- Fills a rectangular region of the map with a constant tile
(tilemap.js fill, lines 164-197).  The source checks a missing max with
the JavaScript falsy test (!xMax), which also fires when the max is the
number 0; this quirk is reproduced with an explicit equality test.
Only the constant-tile variant of fill is used by the generator, so the
callback variant is not modelled. -/
def fill (m : MapChunk) (tile : Tile) (xMin yMin xMax yMax : ℤ) : MapChunk :=
  let xMin' := max 0 xMin
  if m.columns ≤ xMin' then m else
  let xMax' := if xMax = 0 ∨ xMax < xMin' then xMin'
               else if m.columns ≤ xMax then m.columns - 1 else xMax
  let yMin' := max 0 yMin
  if m.rows ≤ yMin' then m else
  let yMax' := if yMax = 0 ∨ yMax < yMin' then yMin'
               else if m.rows ≤ yMax then m.rows - 1 else yMax
  { m with tiles := fun a b =>
      if xMin' ≤ a ∧ a ≤ xMax' ∧ yMin' ≤ b ∧ b ≤ yMax' then tile else m.tiles a b }

/-- Checks whether the given coordinates contain a solid tile: only
Tile.solid and Tile.exclamationBox count (tilemap.js isSolid,
lines 390-399). -/
def isSolid (m : MapChunk) (x y : ℤ) : Bool :=
  match m.getTileAt x y with
  | Tile.solid => true
  | Tile.exclamationBox => true
  | _ => false

/-- Empties the map, replacing all contents with Tile.none (tilemap.js
clear, lines 404-407). -/
def clear (m : MapChunk) : MapChunk :=
  m.fill Tile.none 0 0 m.columns m.rows

end MapChunk

/-- Input object tracking what buttons the simulated player presses
(platformer.js InputState). -/
structure InputState where
  x : ℚ
  jump : Bool
deriving DecidableEq, Repr

/-- Snapshot of the character's physical state (platformer.js class
CharacterState).  Field defaults follow the source (lines 13-29). -/
structure CharacterState where
  x : ℚ := 0
  y : ℚ := 0
  velX : ℚ := 0
  velY : ℚ := 0
  framesSinceGround : ℤ := 1
  framesOnGround : ℤ := 0
  facing : ℤ := 1
deriving DecidableEq, Repr

namespace CharacterState

/-- Should this state count as standing on the ground (platformer.js
isOnGround, lines 57-59)? -/
def isOnGround (s : CharacterState) (coyoteFrames : ℚ) : Bool :=
  decide (0 ≤ s.velY) && decide ((s.framesSinceGround : ℚ) ≤ coyoteFrames)

/-- Accelerate toward a target horizontal velocity, respecting the
acceleration limits (platformer.js accelerateToward, lines 67-78). -/
def accelerateToward (s : CharacterState)
    (targetVelocity maxAcceleration maxDeceleration : ℚ) : CharacterState :=
  let deltaV := targetVelocity - s.velX
  let stopping := targetVelocity = 0 ∨ s.velX * deltaV < 0
  let limit := (if stopping then maxDeceleration else maxAcceleration) * dt
  let clamped := min (max deltaV (-limit)) limit
  { s with velX := s.velX + clamped }

/-- Advance the physics state one time step under the given gravity
(platformer.js step, lines 84-97). -/
def step (s : CharacterState) (gravity : ℚ) : CharacterState :=
  let velY := s.velY + gravity * dt
  let x := s.x + s.velX * dt
  let y := s.y + velY * dt
  let framesOnGround := if 0 < s.framesSinceGround then 0 else s.framesOnGround
  { s with velY := velY, x := x, y := y,
           framesOnGround := framesOnGround,
           framesSinceGround := s.framesSinceGround + 1 }

/-- Make this state jump off the ground (platformer.js jump,
lines 103-108). -/
def jump (s : CharacterState) (jumpVelocity : ℚ) : CharacterState :=
  { s with velY := jumpVelocity, facing := 0, framesOnGround := 0 }

/-- Process coming into contact with the ground (platformer.js land,
lines 113-125). -/
def land (s : CharacterState) : CharacterState :=
  let facing := if s.framesOnGround = 0 then 0 else s.facing
  { s with facing := facing, velY := 0,
           framesSinceGround := 0, framesOnGround := s.framesOnGround + 1 }

/-- The topmost row of the tile map occupied by the character sprite. -/
def topTile (s : CharacterState) : ℤ := ⌊s.y⌋

/-- The bottom row of the tile map occupied by the character sprite. -/
def bottomTile (s : CharacterState) (height : ℚ) : ℤ := ⌈s.y + height - 1⌉

/-- The leftmost column of the tile map occupied by the character. -/
def leftTile (s : CharacterState) : ℤ := ⌊s.x⌋

/-- The rightmost column of the tile map occupied by the character. -/
def rightTile (s : CharacterState) (width : ℚ) : ℤ := ⌈s.x + width - 1⌉

/-- Should this state count as falling (platformer.js isFalling,
line 152)? -/
def isFalling (s : CharacterState) : Bool := decide (0 < s.velY)

end CharacterState

/-- Gameplay parameters of the player character (platformer.js class
CharacterController).  All numeric fields are configuration inputs; the
derived metrics computed by update() involve a square root and are not
needed by the proofs (the pather consumes them only through its injected
probability distributions). -/
structure CharacterController where
  width : ℚ := 99/100
  height : ℚ := 99/100
  gravity : ℚ := 5
  fallingGravityBoost : ℚ := 17/10
  jumpVelocity : ℚ := 9
  runSpeed : ℚ := 4
  maxAcceleration : ℚ := 50
  maxDeceleration : ℚ := 100
  airControl : ℚ := 3/100
  coyoteFrames : ℚ := 2
  jumpHeight : ℚ := 4
deriving DecidableEq, Repr

/-- Report returned by collision handling (platformer.js
CollisionReport). -/
structure CollisionReport where
  collided : Bool
  left : ℤ
  right : ℤ
  top : ℤ
  bottom : ℤ
deriving DecidableEq, Repr

/-- Sign of a rational, as used by Math.sign in the controller. -/
def qsign (q : ℚ) : ℤ := if q < 0 then -1 else if 0 < q then 1 else 0

/-- First integer in the range lo, lo+1, ..., lo+n-1 satisfying the
predicate, if any.  This models the scanning for-loops with break in
handleCollision. -/
def findFirstInt (p : ℤ → Bool) (lo : ℤ) : ℕ → Option ℤ
  | 0 => Option.none
  | n+1 => if p lo then some lo else findFirstInt p (lo + 1) n

namespace CharacterController

/-- Use the character controller to produce a new character state from
the previous state and the player input (platformer.js step,
lines 239-267).  The source clones the old state and mutates the clone,
so the embedding is a pure function of the old state. -/
def step (c : CharacterController) (oldState : CharacterState)
    (input : InputState) : CharacterState :=
  let s := oldState
  let s := if input.x ≠ 0 then { s with facing := qsign input.x } else s
  let targetVelocity := input.x * c.runSpeed
  let traction : ℚ := if s.isOnGround 0 then 1 else c.airControl
  let s := s.accelerateToward targetVelocity (c.maxAcceleration * traction)
            (c.maxDeceleration * traction)
  let s := if input.jump && s.isOnGround c.coyoteFrames then s.jump c.jumpVelocity else s
  let gravity := if s.isFalling then c.gravity * c.fallingGravityBoost else c.gravity
  s.step gravity

/-- Vertical phase of collision resolution (platformer.js
handleCollision, lines 287-325): land when falling onto solid ground,
stop when rising into a ceiling.  Returns the adjusted state, the
current bounds, and the collision flag. -/
def resolveVertical (c : CharacterController) (s : CharacterState)
    (m : MapChunk) : CharacterState × CollisionReport :=
  let left := s.leftTile
  let right := s.rightTile c.width
  let top := s.topTile
  let bottom := s.bottomTile c.height
  if 0 < s.velY then
    match findFirstInt
        (fun x => m.isSolid x bottom && !(m.isSolid x (bottom - 1)))
        left (right + 1 - left).toNat with
    | some _ =>
      let s' := ({ s with y := (bottom : ℚ) - c.height }).land
      (s', { collided := true, left := left, right := right,
             top := s'.topTile, bottom := bottom - 1 })
    | Option.none =>
      (s, { collided := false, left := left, right := right, top := top, bottom := bottom })
  else if s.velY < 0 then
    match findFirstInt
        (fun x => m.isSolid x top && !(m.isSolid x (top + 1)))
        left (right + 1 - left).toNat with
    | some _ =>
      let s' := { s with y := (top : ℚ) + 1, velY := 0 }
      (s', { collided := true, left := left, right := right,
             top := top + 1, bottom := s'.bottomTile c.height })
    | Option.none =>
      (s, { collided := false, left := left, right := right, top := top, bottom := bottom })
  else
    (s, { collided := false, left := left, right := right, top := top, bottom := bottom })

/-- Horizontal phase of collision resolution (platformer.js
handleCollision, lines 327-359), run against the bounds left by the
vertical phase. -/
def resolveHorizontal (c : CharacterController)
    (sr : CharacterState × CollisionReport) (m : MapChunk) :
    CharacterState × CollisionReport :=
  let s := sr.1
  let r := sr.2
  if 0 < s.velX then
    match findFirstInt (fun y => m.isSolid r.right y) r.top (r.bottom + 1 - r.top).toNat with
    | some _ =>
      let s' := { s with x := (r.right : ℚ) - c.width, velX := 0, facing := -s.facing }
      (s', { r with collided := true, left := s'.leftTile, right := r.right - 1 })
    | Option.none => (s, r)
  else if s.velX < 0 then
    match findFirstInt (fun y => m.isSolid r.left y) r.top (r.bottom + 1 - r.top).toNat with
    | some _ =>
      let s' := { s with x := (r.left : ℚ) + 1, velX := 0, facing := -s.facing }
      (s', { r with collided := true, left := r.left + 1, right := s'.rightTile c.width })
    | Option.none => (s, r)
  else (s, r)

/-- Checks for collisions between a character and the map and resolves
them (platformer.js handleCollision, lines 285-363): vertical axis
first, then horizontal against the adjusted bounds.  The debug-only
collision annotation field assigned by the source is not modelled. -/
def handleCollision (c : CharacterController) (s : CharacterState)
    (m : MapChunk) : CharacterState × CollisionReport :=
  c.resolveHorizontal (c.resolveVertical s m) m

end CharacterController

/-!
Discrete triangle distribution (pather.js lines 312-357).  The source
builds a closure over min and max; the embedding passes them explicitly.
-/

/-- Probability weight residing at inputs at or beyond the given offset
from the minimum (pather.js futureWeightAt, lines 325-332). -/
def futureWeightAt (mn mx fromMin : ℤ) : ℚ :=
  let span : ℤ := mx - mn + 1
  let halfSpan : ℚ := (span : ℚ) / 2
  let halfRoundUp : ℤ := ⌈halfSpan⌉
  let totalWeight : ℚ := (halfRoundUp : ℚ) * halfRoundUp
  if (fromMin : ℚ) < halfSpan then
    totalWeight - (fromMin : ℚ) * ((fromMin : ℚ) + 1) / 2
  else
    ((span - fromMin : ℤ) : ℚ) * (((span - fromMin : ℤ) : ℚ) + 1) / 2

/-- Probability of success at this offset given no success at previous
offsets (pather.js getProbability, lines 336-341). -/
def getProbability (mn mx fromMin : ℤ) : ℚ :=
  1 - futureWeightAt mn mx fromMin / futureWeightAt mn mx (fromMin - 1)

/-- Probability table for inputs between min and max (pather.js
lines 344-346): entry j holds getProbability (j + 1). -/
def lookupTable (mn mx : ℤ) : List ℚ :=
  (List.range (mx - mn + 1).toNat).map (fun j : ℕ => getProbability mn mx ((j : ℤ) + 1))

/-- Sampling function returned by discreteTriangleDistribution
(pather.js sample, lines 349-356): 0 below min, 1 at or above max, the
table value in between. -/
def discreteTriangleDistribution (mn mx : ℤ) : ℤ → ℚ := fun value =>
  if value < mn then 0
  else if mx ≤ value then 1
  else (lookupTable mn mx).getD (value - mn).toNat 0

lemma ceil_half : ⌈(1:ℚ)/2⌉ = 1 := by
  apply Int.ceil_eq_iff.mpr
  norm_num

lemma ceil_odd_half (m : ℤ) : ⌈((2 * m + 1 : ℤ) : ℚ) / 2⌉ = m + 1 := by
  rw [show ((2 * m + 1 : ℤ) : ℚ) / 2 = ((1:ℚ)/2 + (m : ℤ)) by push_cast; ring]
  rw [Int.ceil_add_int, ceil_half]
  ring

/-- Closed form of the future weight in the first half of an odd-width
domain. -/
lemma ftw_low (mn mx m : ℤ) (hm : mx - mn = 2 * m) (k : ℤ) (hkm : k ≤ m) :
    futureWeightAt mn mx k = ((m : ℚ) + 1) ^ 2 - (k : ℚ) * ((k : ℚ) + 1) / 2 := by
  have hspan : mx - mn + 1 = 2 * m + 1 := by omega
  have hc : (k : ℚ) ≤ (m : ℚ) := by exact_mod_cast hkm
  unfold futureWeightAt
  rw [hspan]
  have hlt : ((k : ℚ)) < ((2 * m + 1 : ℤ) : ℚ) / 2 := by push_cast; linarith
  rw [if_pos hlt, ceil_odd_half]
  push_cast; ring

/-- Closed form of the future weight in the second half of an odd-width
domain. -/
lemma ftw_high (mn mx m : ℤ) (hm : mx - mn = 2 * m) (k : ℤ) (hkm : m + 1 ≤ k) :
    futureWeightAt mn mx k
      = ((2 * m + 1 - k : ℤ) : ℚ) * (((2 * m + 1 - k : ℤ) : ℚ) + 1) / 2 := by
  have hspan : mx - mn + 1 = 2 * m + 1 := by omega
  have hc : (m : ℚ) + 1 ≤ (k : ℚ) := by exact_mod_cast hkm
  unfold futureWeightAt
  rw [hspan]
  have hge : ¬ ((k : ℚ)) < ((2 * m + 1 : ℤ) : ℚ) / 2 := by push_cast; push_neg; linarith
  rw [if_neg hge]

/-- The future weight is positive strictly inside an odd-width domain. -/
lemma ftw_pos (mn mx m : ℤ) (hm : mx - mn = 2 * m) (hm0 : 0 ≤ m) (k : ℤ)
    (hk0 : 0 ≤ k) (hkm : k ≤ 2 * m) : 0 < futureWeightAt mn mx k := by
  rcases le_or_lt k m with hk | hk
  · rw [ftw_low mn mx m hm k hk]
    have h1 : (0 : ℚ) ≤ (k : ℚ) := by exact_mod_cast hk0
    have h2 : (k : ℚ) ≤ (m : ℚ) := by exact_mod_cast hk
    nlinarith [mul_nonneg (sub_nonneg.mpr h2) h1, mul_nonneg (sub_nonneg.mpr h2) (le_trans h1 h2)]
  · rw [ftw_high mn mx m hm k (by omega)]
    have h1 : (1 : ℚ) ≤ ((2 * m + 1 - k : ℤ) : ℚ) := by
      exact_mod_cast (by omega : (1:ℤ) ≤ 2*m+1-k)
    nlinarith

/-- The future weight is nonnegative on an odd-width domain. -/
lemma ftw_nonneg (mn mx m : ℤ) (hm : mx - mn = 2 * m) (hm0 : 0 ≤ m) (k : ℤ)
    (hk0 : 0 ≤ k) (hkm : k ≤ 2 * m + 1) : 0 ≤ futureWeightAt mn mx k := by
  rcases le_or_lt k (2*m) with hk | hk
  · exact le_of_lt (ftw_pos mn mx m hm hm0 k hk0 hk)
  · have hk' : k = 2*m+1 := by omega
    rw [ftw_high mn mx m hm k (by omega), hk']
    norm_num

/-- The future weight does not increase along an odd-width domain. -/
lemma ftw_anti (mn mx m : ℤ) (hm : mx - mn = 2 * m) (hm0 : 0 ≤ m) (k : ℤ)
    (hk1 : 1 ≤ k) (hkm : k ≤ 2 * m + 1) :
    futureWeightAt mn mx k ≤ futureWeightAt mn mx (k - 1) := by
  rcases le_or_lt k m with hk | hk
  · rw [ftw_low mn mx m hm k hk, ftw_low mn mx m hm (k-1) (by omega)]
    have h1 : (1 : ℚ) ≤ (k : ℚ) := by exact_mod_cast hk1
    push_cast; nlinarith
  · rcases le_or_lt k (m+1) with hk2 | hk2
    · have hk' : k = m + 1 := by omega
      rw [hk']
      rw [show m + 1 - 1 = m by ring]
      rw [ftw_high mn mx m hm (m+1) le_rfl, ftw_low mn mx m hm m le_rfl]
      push_cast
      have h1 : (0 : ℚ) ≤ (m : ℚ) := by exact_mod_cast hm0
      nlinarith
    · rw [ftw_high mn mx m hm k (by omega), ftw_high mn mx m hm (k-1) (by omega)]
      have h1 : (0 : ℚ) ≤ ((2 * m + 1 - k : ℤ) : ℚ) := by
        exact_mod_cast (by omega : (0:ℤ) ≤ 2*m+1-k)
      push_cast
      push_cast at h1
      nlinarith

/-- Log-concavity of the future weight on an odd-width domain: the key
step behind the rising hazard rate. -/
lemma ftw_logconcave (mn mx m : ℤ) (hm : mx - mn = 2 * m) (hm0 : 0 ≤ m) (k : ℤ)
    (hk1 : 1 ≤ k) (hkm : k ≤ 2 * m) :
    futureWeightAt mn mx (k + 1) * futureWeightAt mn mx (k - 1)
      ≤ futureWeightAt mn mx k ^ 2 := by
  rcases lt_trichotomy k m with hk | hk | hk
  · rw [ftw_low mn mx m hm (k+1) (by omega),
        ftw_low mn mx m hm (k-1) (by omega),
        ftw_low mn mx m hm k (by omega)]
    have h1 : (1 : ℚ) ≤ (k : ℚ) := by exact_mod_cast hk1
    have h2 : (k : ℚ) ≤ (m : ℚ) := by exact_mod_cast le_of_lt hk
    push_cast
    nlinarith [sq_nonneg ((m:ℚ)+1)]
  · rw [hk]
    have hm1 : 1 ≤ m := by omega
    have h1 : (1 : ℚ) ≤ (m : ℚ) := by exact_mod_cast hm1
    rw [ftw_high mn mx m hm (m+1) le_rfl,
        ftw_low mn mx m hm (m-1) (by omega),
        ftw_low mn mx m hm m le_rfl]
    push_cast
    nlinarith
  · rcases lt_or_le (m+1) k with hk2 | hk2
    · rw [ftw_high mn mx m hm (k+1) (by omega),
          ftw_high mn mx m hm (k-1) (by omega),
          ftw_high mn mx m hm k (by omega)]
      have h0 : (1 : ℚ) ≤ ((2 * m + 1 - k : ℤ) : ℚ) := by
        exact_mod_cast (by omega : (1:ℤ) ≤ 2*m+1-k)
      push_cast
      push_cast at h0
      nlinarith
    · have hk' : k = m + 1 := by omega
      have hm1 : 1 ≤ m := by omega
      have h1 : (1 : ℚ) ≤ (m : ℚ) := by exact_mod_cast hm1
      rw [hk']
      rw [show m + 1 - 1 = m by ring]
      rw [ftw_high mn mx m hm (m+1+1) (by omega),
          ftw_low mn mx m hm m le_rfl,
          ftw_high mn mx m hm (m+1) le_rfl]
      push_cast
      nlinarith

/-- Table probabilities are nonnegative on an odd-width domain. -/
lemma gp_nonneg (mn mx m : ℤ) (hm : mx - mn = 2 * m) (hm0 : 0 ≤ m) (k : ℤ)
    (hk1 : 1 ≤ k) (hkm : k ≤ 2 * m + 1) : 0 ≤ getProbability mn mx k := by
  unfold getProbability
  have h1 := ftw_anti mn mx m hm hm0 k hk1 hkm
  have h2 := ftw_pos mn mx m hm hm0 (k-1) (by omega) (by omega)
  have h3 : futureWeightAt mn mx k / futureWeightAt mn mx (k-1) ≤ 1 :=
    (div_le_one h2).mpr h1
  linarith

/-- Table probabilities are at most one on an odd-width domain. -/
lemma gp_le_one (mn mx m : ℤ) (hm : mx - mn = 2 * m) (hm0 : 0 ≤ m) (k : ℤ)
    (hk1 : 1 ≤ k) (hkm : k ≤ 2 * m + 1) : getProbability mn mx k ≤ 1 := by
  unfold getProbability
  have h1 := ftw_nonneg mn mx m hm hm0 k (by omega) hkm
  have h2 := ftw_pos mn mx m hm hm0 (k-1) (by omega) (by omega)
  have h3 : 0 ≤ futureWeightAt mn mx k / futureWeightAt mn mx (k-1) :=
    div_nonneg h1 (le_of_lt h2)
  linarith

/-- Table probabilities rise along an odd-width domain. -/
lemma gp_mono (mn mx m : ℤ) (hm : mx - mn = 2 * m) (hm0 : 0 ≤ m) (k : ℤ)
    (hk1 : 1 ≤ k) (hkm : k ≤ 2 * m) :
    getProbability mn mx k ≤ getProbability mn mx (k + 1) := by
  unfold getProbability
  have ha := ftw_pos mn mx m hm hm0 (k-1) (by omega) (by omega)
  have hb := ftw_pos mn mx m hm hm0 k (by omega) (by omega)
  have hlc := ftw_logconcave mn mx m hm hm0 k hk1 hkm
  have key : futureWeightAt mn mx (k+1) / futureWeightAt mn mx k
      ≤ futureWeightAt mn mx k / futureWeightAt mn mx (k-1) := by
    rw [div_le_div_iff hb ha]
    nlinarith
  rw [show k + 1 - 1 = k by ring]
  linarith

/-- Table access: for min ≤ v < max the sample reads table entry
getProbability (v - min + 1). -/
lemma lookupTable_getD (mn mx v : ℤ) (h1 : mn ≤ v) (h2 : v < mx) :
    (lookupTable mn mx).getD (v - mn).toNat 0 = getProbability mn mx (v - mn + 1) := by
  have hj : (v - mn).toNat < (mx - mn + 1).toNat := by omega
  unfold lookupTable
  rw [List.getD_eq_getElem?_getD, List.getElem?_map, List.getElem?_range hj]
  simp only [Option.map_some', Option.getD_some]
  congr 1
  omega

/-- The sample between min and max is the table probability. -/
lemma dtd_table (mn mx v : ℤ) (h1 : mn ≤ v) (h2 : v < mx) :
    discreteTriangleDistribution mn mx v = getProbability mn mx (v - mn + 1) := by
  unfold discreteTriangleDistribution
  rw [if_neg (by omega), if_neg (by omega), lookupTable_getD mn mx v h1 h2]

/-- For a two-element domain the single consulted table entry is zero. -/
lemma dtd_span2_table (mn : ℤ) : getProbability mn (mn + 1) 1 = 0 := by
  unfold getProbability futureWeightAt
  have hspan : mn + 1 - mn + 1 = (2 : ℤ) := by ring
  rw [hspan]
  norm_num

/-- Successive-step monotonicity of the sampling function, in the cases
where it holds: odd domain width (max - min even) or width two. -/
lemma dtd_step (mn mx : ℤ) (hle : mn ≤ mx) (hcase : Even (mx - mn) ∨ mx - mn = 1)
    (v : ℤ) :
    discreteTriangleDistribution mn mx v ≤ discreteTriangleDistribution mn mx (v + 1) := by
  rcases hcase with ⟨m, hm⟩ | hspan2
  · have hm' : mx - mn = 2 * m := by omega
    have hm0 : 0 ≤ m := by omega
    by_cases hA : v + 1 < mn
    · unfold discreteTriangleDistribution
      rw [if_pos (by omega), if_pos hA]
    · by_cases hB : mx ≤ v
      · unfold discreteTriangleDistribution
        rw [if_neg (by omega), if_pos hB, if_neg (by omega), if_pos (by omega)]
      · by_cases hC : v + 1 = mn
        · have hL : discreteTriangleDistribution mn mx v = 0 := by
            unfold discreteTriangleDistribution
            rw [if_pos (by omega)]
          rw [hL]
          by_cases hD : mx ≤ v + 1
          · unfold discreteTriangleDistribution
            rw [if_neg (by omega), if_pos hD]
            norm_num
          · rw [dtd_table mn mx (v+1) (by omega) (by omega)]
            have := gp_nonneg mn mx m hm' hm0 (v + 1 - mn + 1) (by omega) (by omega)
            linarith
        · by_cases hE : v + 1 = mx
          · rw [dtd_table mn mx v (by omega) (by omega)]
            have h1 : discreteTriangleDistribution mn mx (v+1) = 1 := by
              unfold discreteTriangleDistribution
              rw [if_neg (by omega), if_pos (by omega)]
            rw [h1]
            exact gp_le_one mn mx m hm' hm0 (v - mn + 1) (by omega) (by omega)
          · rw [dtd_table mn mx v (by omega) (by omega),
                dtd_table mn mx (v+1) (by omega) (by omega)]
            rw [show v + 1 - mn + 1 = (v - mn + 1) + 1 by ring]
            exact gp_mono mn mx m hm' hm0 (v - mn + 1) (by omega) (by omega)
  · have hx : mx = mn + 1 := by omega
    subst hx
    by_cases hA : v + 1 < mn
    · unfold discreteTriangleDistribution
      rw [if_pos (by omega), if_pos hA]
    · by_cases hB : mn + 1 ≤ v
      · unfold discreteTriangleDistribution
        rw [if_neg (by omega), if_pos hB, if_neg (by omega), if_pos (by omega)]
      · by_cases hC : v + 1 = mn
        · have hL : discreteTriangleDistribution mn (mn+1) v = 0 := by
            unfold discreteTriangleDistribution
            rw [if_pos (by omega)]
          rw [hL, dtd_table mn (mn+1) (v+1) (by omega) (by omega)]
          rw [show v + 1 - mn + 1 = (1 : ℤ) by omega]
          rw [dtd_span2_table]
        · have hv : v = mn := by omega
          rw [dtd_table mn (mn+1) v (by omega) (by omega)]
          rw [show v - mn + 1 = (1 : ℤ) by omega, dtd_span2_table]
          unfold discreteTriangleDistribution
          rw [if_neg (by omega), if_pos (by omega)]
          norm_num

/-- C4, claim as stated, fails: for min 0 and max 3 (domain width four)
the sampling function decreases from input 0 to input 1 (the table holds
1/4 then 0), so it is not non-decreasing over the integers. -/
theorem c4_counterexample :
    discreteTriangleDistribution 0 3 1 < discreteTriangleDistribution 0 3 0 := by
  rw [dtd_table 0 3 1 (by norm_num) (by norm_num), dtd_table 0 3 0 (by norm_num) (by norm_num)]
  unfold getProbability futureWeightAt
  norm_num

/-- C4 (amended): for every min ≤ max the sampling function returned by
discreteTriangleDistribution is exactly 0 strictly below min and exactly
1 at or above max; it is non-decreasing over the whole integer domain
when the width max - min + 1 is odd (max - min even) or equals two
(max - min = 1), but not in general for even widths of at least four. -/
theorem c4_triangle_distribution (mn mx : ℤ) (h : mn ≤ mx) :
    (∀ v : ℤ, v < mn → discreteTriangleDistribution mn mx v = 0) ∧
    (∀ v : ℤ, mx ≤ v → discreteTriangleDistribution mn mx v = 1) ∧
    ((Even (mx - mn) ∨ mx - mn = 1) → Monotone (discreteTriangleDistribution mn mx)) := by
  refine ⟨?_, ?_, ?_⟩
  · intro v hv
    unfold discreteTriangleDistribution
    rw [if_pos hv]
  · intro v hv
    unfold discreteTriangleDistribution
    rw [if_neg (by omega), if_pos hv]
  · intro hcase
    exact monotone_int_of_le_succ (dtd_step mn mx h hcase)

/-- Witness for C4: the amended theorem applied at min 0, max 4. -/
theorem c4_witness :
    (∀ v : ℤ, v < 0 → discreteTriangleDistribution 0 4 v = 0) ∧
    (∀ v : ℤ, (4:ℤ) ≤ v → discreteTriangleDistribution 0 4 v = 1) ∧
    ((Even ((4:ℤ) - 0) ∨ (4:ℤ) - 0 = 1) → Monotone (discreteTriangleDistribution 0 4)) :=
  c4_triangle_distribution 0 4 (by norm_num)

/-- C9: MapChunk.isSolid returns true exactly when the tile read at the
coordinates is Tile.solid or Tile.exclamationBox; every other tile value
(coins, enemies, wood boxes, markers, reservation symbols, empty) and
every out-of-bounds coordinate is non-solid. -/
theorem c9_isSolid (m : MapChunk) (x y : ℤ) :
    (m.isSolid x y = true ↔
      (m.getTileAt x y = Tile.solid ∨ m.getTileAt x y = Tile.exclamationBox)) ∧
    ((x < 0 ∨ m.columns ≤ x ∨ y < 0 ∨ m.rows ≤ y) → m.isSolid x y = false) := by
  constructor
  · unfold MapChunk.isSolid
    rcases h : m.getTileAt x y <;> simp
  · intro hoob
    have hnone : m.getTileAt x y = Tile.none := by
      unfold MapChunk.getTileAt
      by_cases h1 : x < 0 ∨ m.columns ≤ x
      · rw [if_pos h1]
      · rw [if_neg h1, if_pos (by omega)]
    unfold MapChunk.isSolid
    rw [hnone]

/-- C5 (amended): accelerateToward changes velX by at most limit·dt in
magnitude, where the limit used is the deceleration limit whenever the
target velocity is zero or the required velocity change opposes the
current velocity (velX·(target - velX) < 0, i.e. slowing down or
reversing), and the acceleration limit otherwise; when the target is
within the limit it is reached exactly.  The source selects deceleration
based on the sign of the velocity change, not on the sign of the target,
so slowing down toward a nonzero same-direction target also uses the
deceleration limit. -/
theorem c5_accelerate (s : CharacterState) (tv ma md : ℚ)
    (hma : 0 ≤ ma) (hmd : 0 ≤ md) :
    |(s.accelerateToward tv ma md).velX - s.velX|
        ≤ (if tv = 0 ∨ s.velX * (tv - s.velX) < 0 then md else ma) * dt ∧
    (|tv - s.velX| ≤ (if tv = 0 ∨ s.velX * (tv - s.velX) < 0 then md else ma) * dt →
      (s.accelerateToward tv ma md).velX = tv) := by
  unfold CharacterState.accelerateToward
  simp only
  set L := (if tv = 0 ∨ s.velX * (tv - s.velX) < 0 then md else ma) * dt with hL
  have hL0 : 0 ≤ L := by
    rw [hL]
    have : (0:ℚ) ≤ dt := by norm_num [dt]
    split <;> positivity
  constructor
  · have h1 : s.velX + min (max (tv - s.velX) (-L)) L - s.velX
        = min (max (tv - s.velX) (-L)) L := by ring
    rw [h1, abs_le]
    constructor
    · have h2 : -L ≤ max (tv - s.velX) (-L) := le_max_right _ _
      have h3 : -L ≤ L := by linarith
      exact le_min h2 h3
    · exact min_le_right _ _
  · intro h
    rw [abs_le] at h
    have h1 : max (tv - s.velX) (-L) = tv - s.velX := max_eq_left h.1
    rw [h1, min_eq_left h.2]
    ring

/-- C5, claim as stated, fails: with current velocity 5, target 3
(nonzero and not opposing the current direction since 5 times 3 is
positive), acceleration limit 10 and deceleration limit 100, the claim
predicts a velocity change of at most 10·dt = 1/3, but the code selects
the deceleration limit (it is slowing down) and reaches the target
exactly, a change of magnitude 2. -/
theorem c5_counterexample :
    (({ velX := 5 } : CharacterState).accelerateToward 3 10 100).velX = 3 ∧
    (3:ℚ) ≠ 0 ∧ 0 < (5:ℚ) * 3 ∧ 10 * dt < |(3:ℚ) - 5| := by
  refine ⟨?_, by norm_num, by norm_num, by rw [abs_of_nonpos (by norm_num)]; norm_num [dt]⟩
  unfold CharacterState.accelerateToward
  norm_num [dt]

/-- Witness for C5: the amended theorem applied to a concrete slowdown. -/
theorem c5_witness :
    |(({ velX := 5 } : CharacterState).accelerateToward 3 10 100).velX
        - ({ velX := 5 } : CharacterState).velX|
        ≤ (if (3:ℚ) = 0 ∨ ({ velX := 5 } : CharacterState).velX
              * (3 - ({ velX := 5 } : CharacterState).velX) < 0 then (100:ℚ) else 10) * dt ∧
    (|(3:ℚ) - ({ velX := 5 } : CharacterState).velX|
        ≤ (if (3:ℚ) = 0 ∨ ({ velX := 5 } : CharacterState).velX
              * (3 - ({ velX := 5 } : CharacterState).velX) < 0 then (100:ℚ) else 10) * dt →
      (({ velX := 5 } : CharacterState).accelerateToward 3 10 100).velX = 3) :=
  c5_accelerate { velX := 5 } 3 10 100 (by norm_num) (by norm_num)

/-- Scanning a range finds a witness when one exists (the collision
loops with break always fire when some column or row matches). -/
lemma findFirstInt_isSome (p : ℤ → Bool) (lo : ℤ) (n : ℕ)
    (h : ∃ x, lo ≤ x ∧ x < lo + n ∧ p x = true) :
    (findFirstInt p lo n).isSome = true := by
  induction n generalizing lo with
  | zero =>
    obtain ⟨x, h1, h2, _⟩ := h
    omega
  | succ k ih =>
    obtain ⟨x, h1, h2, h3⟩ := h
    unfold findFirstInt
    by_cases hp : p lo
    · rw [if_pos hp]
      rfl
    · rw [if_neg hp]
      apply ih
      refine ⟨x, ?_, by omega, h3⟩
      rcases eq_or_lt_of_le h1 with he | hlt
      · rw [← he] at h3
        exact absurd h3 hp
      · omega

/-- Shape of the vertical resolution when the character is descending
and the landing scan finds a column. -/
lemma resolveVertical_found (c : CharacterController) (s : CharacterState)
    (m : MapChunk) (z : ℤ) (hfall : 0 < s.velY)
    (hfind : findFirstInt
        (fun x => m.isSolid x (s.bottomTile c.height)
          && !(m.isSolid x (s.bottomTile c.height - 1)))
        s.leftTile (s.rightTile c.width + 1 - s.leftTile).toNat = some z) :
    c.resolveVertical s m =
      (({ s with y := (s.bottomTile c.height : ℚ) - c.height }).land,
       { collided := true, left := s.leftTile, right := s.rightTile c.width,
         top := (({ s with y := (s.bottomTile c.height : ℚ) - c.height }).land).topTile,
         bottom := s.bottomTile c.height - 1 }) := by
  unfold CharacterController.resolveVertical
  simp only [hfind, if_pos hfall]

/-- Shape of the horizontal resolution when the character is moving
right and the wall scan finds a row in the incoming bounds. -/
lemma resolveHorizontal_found_right (c : CharacterController)
    (s : CharacterState) (r : CollisionReport) (m : MapChunk) (z : ℤ)
    (hrun : 0 < s.velX)
    (hfind : findFirstInt (fun y => m.isSolid r.right y) r.top
        (r.bottom + 1 - r.top).toNat = some z) :
    c.resolveHorizontal (s, r) m =
      ({ s with x := (r.right : ℚ) - c.width, velX := 0, facing := -s.facing },
       { r with collided := true,
                left := ⌊(r.right : ℚ) - c.width⌋,
                right := r.right - 1 }) := by
  unfold CharacterController.resolveHorizontal
  simp only [hfind, if_pos hrun]
  rfl

/-- Shape of the horizontal resolution when the character is moving
left and the wall scan finds a row in the incoming bounds. -/
lemma resolveHorizontal_found_left (c : CharacterController)
    (s : CharacterState) (r : CollisionReport) (m : MapChunk) (z : ℤ)
    (hrun : s.velX < 0)
    (hfind : findFirstInt (fun y => m.isSolid r.left y) r.top
        (r.bottom + 1 - r.top).toNat = some z) :
    c.resolveHorizontal (s, r) m =
      ({ s with x := (r.left : ℚ) + 1, velX := 0, facing := -s.facing },
       { r with collided := true,
                left := r.left + 1,
                right := ⌈(r.left : ℚ) + 1 + c.width - 1⌉ }) := by
  unfold CharacterController.resolveHorizontal
  rw [if_neg (by simp only [not_lt]; linarith), if_pos hrun]
  simp only [hfind]
  rfl

/-- C6: handleCollision resolves the vertical axis first, with one
response per axis.  When descending onto a column whose tile at the
bottom row is solid with a non-solid tile above it, the state is snapped
to rest exactly on that surface (y becomes bottom - height), vertical
velocity is zeroed and the state is grounded, while x and velX are
untouched; afterwards, when moving right and the right edge column
holds a solid tile within the adjusted vertical bounds, x is snapped so
the right side sits at the left face of that column (x becomes
right - width), horizontal velocity is zeroed and the facing direction
is negated (symmetrically for leftward motion, snapping to the right
face of the left column). -/
theorem c6_handleCollision (c : CharacterController) (s : CharacterState)
    (m : MapChunk) (hfall : 0 < s.velY)
    (hland : ∃ x0, s.leftTile ≤ x0 ∧ x0 ≤ s.rightTile c.width ∧
      m.isSolid x0 (s.bottomTile c.height) = true ∧
      m.isSolid x0 (s.bottomTile c.height - 1) = false) :
    ((c.resolveVertical s m).1.y = (s.bottomTile c.height : ℚ) - c.height ∧
     (c.resolveVertical s m).1.velY = 0 ∧
     (c.resolveVertical s m).1.framesSinceGround = 0 ∧
     (c.resolveVertical s m).1.isOnGround 0 = true ∧
     (c.resolveVertical s m).1.x = s.x ∧
     (c.resolveVertical s m).1.velX = s.velX ∧
     (c.resolveVertical s m).2.collided = true ∧
     (c.resolveVertical s m).2.left = s.leftTile ∧
     (c.resolveVertical s m).2.right = s.rightTile c.width ∧
     (c.resolveVertical s m).2.top = ⌊(s.bottomTile c.height : ℚ) - c.height⌋ ∧
     (c.resolveVertical s m).2.bottom = s.bottomTile c.height - 1) ∧
    (0 < s.velX →
      (∃ y0, (c.resolveVertical s m).2.top ≤ y0 ∧
        y0 ≤ (c.resolveVertical s m).2.bottom ∧
        m.isSolid (s.rightTile c.width) y0 = true) →
      (c.handleCollision s m).1.x = (s.rightTile c.width : ℚ) - c.width ∧
      (c.handleCollision s m).1.velX = 0 ∧
      (c.handleCollision s m).1.facing = -(c.resolveVertical s m).1.facing ∧
      (c.handleCollision s m).1.y = (s.bottomTile c.height : ℚ) - c.height ∧
      (c.handleCollision s m).1.velY = 0 ∧
      (c.handleCollision s m).1.isOnGround 0 = true ∧
      (c.handleCollision s m).2.collided = true ∧
      (c.handleCollision s m).2.right = s.rightTile c.width - 1 ∧
      (c.handleCollision s m).2.bottom = s.bottomTile c.height - 1) ∧
    (s.velX < 0 →
      (∃ y0, (c.resolveVertical s m).2.top ≤ y0 ∧
        y0 ≤ (c.resolveVertical s m).2.bottom ∧
        m.isSolid s.leftTile y0 = true) →
      (c.handleCollision s m).1.x = (s.leftTile : ℚ) + 1 ∧
      (c.handleCollision s m).1.velX = 0 ∧
      (c.handleCollision s m).1.facing = -(c.resolveVertical s m).1.facing ∧
      (c.handleCollision s m).1.y = (s.bottomTile c.height : ℚ) - c.height ∧
      (c.handleCollision s m).2.collided = true ∧
      (c.handleCollision s m).2.left = s.leftTile + 1) := by
  obtain ⟨x0, hx1, hx2, hx3, hx4⟩ := hland
  have hsome := findFirstInt_isSome
    (fun x => m.isSolid x (s.bottomTile c.height)
      && !(m.isSolid x (s.bottomTile c.height - 1)))
    s.leftTile (s.rightTile c.width + 1 - s.leftTile).toNat
    ⟨x0, hx1, by omega, by simp [hx3, hx4]⟩
  rcases hfind : findFirstInt
      (fun x => m.isSolid x (s.bottomTile c.height)
        && !(m.isSolid x (s.bottomTile c.height - 1)))
      s.leftTile (s.rightTile c.width + 1 - s.leftTile).toNat with _ | z
  · rw [hfind] at hsome
    simp at hsome
  have hv := resolveVertical_found c s m z hfall hfind
  refine ⟨?_, ?_, ?_⟩
  · rw [hv]
    refine ⟨rfl, rfl, rfl, ?_, rfl, rfl, rfl, rfl, rfl, rfl, rfl⟩
    unfold CharacterState.isOnGround CharacterState.land
    norm_num
  · intro hrun hwall
    obtain ⟨y0, hy1, hy2, hy3⟩ := hwall
    rw [hv] at hy1 hy2
    have hy1' : ⌊(s.bottomTile c.height : ℚ) - c.height⌋ ≤ y0 := hy1
    have hy2' : y0 ≤ s.bottomTile c.height - 1 := hy2
    have hsome2 := findFirstInt_isSome
      (fun y => m.isSolid (s.rightTile c.width) y)
      ⌊(s.bottomTile c.height : ℚ) - c.height⌋
      (s.bottomTile c.height - 1 + 1 - ⌊(s.bottomTile c.height : ℚ) - c.height⌋).toNat
      ⟨y0, hy1', by omega, hy3⟩
    rcases hfind2 : findFirstInt
        (fun y => m.isSolid (s.rightTile c.width) y)
        ⌊(s.bottomTile c.height : ℚ) - c.height⌋
        (s.bottomTile c.height - 1 + 1 - ⌊(s.bottomTile c.height : ℚ) - c.height⌋).toNat
        with _ | z2
    · rw [hfind2] at hsome2
      simp at hsome2
    have hh : c.handleCollision s m =
        c.resolveHorizontal (c.resolveVertical s m) m := rfl
    have key := resolveHorizontal_found_right c
      (({ s with y := (s.bottomTile c.height : ℚ) - c.height }).land)
      { collided := true, left := s.leftTile, right := s.rightTile c.width,
        top := (({ s with y := (s.bottomTile c.height : ℚ) - c.height }).land).topTile,
        bottom := s.bottomTile c.height - 1 }
      m z2 hrun hfind2
    rw [hh, hv, key]
    refine ⟨rfl, rfl, rfl, rfl, rfl, ?_, rfl, rfl, rfl⟩
    unfold CharacterState.isOnGround CharacterState.land
    norm_num
  · intro hrun hwall
    obtain ⟨y0, hy1, hy2, hy3⟩ := hwall
    rw [hv] at hy1 hy2
    have hy1' : ⌊(s.bottomTile c.height : ℚ) - c.height⌋ ≤ y0 := hy1
    have hy2' : y0 ≤ s.bottomTile c.height - 1 := hy2
    have hsome2 := findFirstInt_isSome
      (fun y => m.isSolid s.leftTile y)
      ⌊(s.bottomTile c.height : ℚ) - c.height⌋
      (s.bottomTile c.height - 1 + 1 - ⌊(s.bottomTile c.height : ℚ) - c.height⌋).toNat
      ⟨y0, hy1', by omega, hy3⟩
    rcases hfind2 : findFirstInt
        (fun y => m.isSolid s.leftTile y)
        ⌊(s.bottomTile c.height : ℚ) - c.height⌋
        (s.bottomTile c.height - 1 + 1 - ⌊(s.bottomTile c.height : ℚ) - c.height⌋).toNat
        with _ | z2
    · rw [hfind2] at hsome2
      simp at hsome2
    have hh : c.handleCollision s m =
        c.resolveHorizontal (c.resolveVertical s m) m := rfl
    have key := resolveHorizontal_found_left c
      (({ s with y := (s.bottomTile c.height : ℚ) - c.height }).land)
      { collided := true, left := s.leftTile, right := s.rightTile c.width,
        top := (({ s with y := (s.bottomTile c.height : ℚ) - c.height }).land).topTile,
        bottom := s.bottomTile c.height - 1 }
      m z2 hrun hfind2
    rw [hh, hv, key]
    exact ⟨rfl, rfl, rfl, rfl, rfl, rfl⟩

/-- Concrete map for the collision witness: a single solid tile at
column 2, row 2 of a 10 by 10 map. -/
def c6Map : MapChunk :=
  { columns := 10, rows := 10,
    tiles := fun a b => if a = 2 ∧ b = 2 then Tile.solid else Tile.none }

/-- Concrete descending state for the collision witness. -/
def c6State : CharacterState :=
  { x := 5/2, y := 3/2, velX := 1, velY := 1,
    framesSinceGround := 3, framesOnGround := 0, facing := 1 }

/-- Witness for C6: a concrete descending state over a solid tile lands
with zero vertical velocity. -/
lemma c6_ceil_a : ⌈(149:ℚ)/100⌉ = 2 := Int.ceil_eq_iff.mpr (by norm_num)

lemma c6_ceil_b : ⌈(249:ℚ)/100⌉ = 3 := Int.ceil_eq_iff.mpr (by norm_num)

lemma c6_floor_a : ⌊(5:ℚ)/2⌋ = 2 := Int.floor_eq_iff.mpr (by norm_num)

theorem c6_witness :
    (({} : CharacterController).resolveVertical c6State c6Map).1.velY = 0 :=
  (c6_handleCollision {} c6State c6Map (by norm_num [c6State])
    ⟨2, by norm_num [c6State, CharacterState.leftTile, c6_floor_a],
        by norm_num [c6State, CharacterState.rightTile, CharacterState.bottomTile, c6_ceil_b],
        by norm_num [c6State, c6Map, CharacterState.bottomTile, c6_ceil_a,
          MapChunk.isSolid, MapChunk.getTileAt],
        by norm_num [c6State, c6Map, CharacterState.bottomTile, c6_ceil_a,
          MapChunk.isSolid, MapChunk.getTileAt]⟩).1.2.1

/-!
Path generator (pather.js lines 359-597, the documented variant).
Math.random() is modelled as a stream of rationals consumed one value
per call, in source order.  The mutable Pather fields successfulPath and
lastAttempt are threaded explicitly as PatherResults.  The global
controller read by selectInputForState is the same object as
this.controller in the page wiring, so the embedding uses the single
controller field.  The derived update() method computes the two timing
distributions through a square root; the distributions are therefore
modelled as injected fields, which the claims treat as configuration.
-/

/-- Stream of values standing for successive Math.random() results. -/
structure Rng where
  vals : ℕ → ℚ
  idx : ℕ

/-- Consume one random value. -/
def Rng.next (r : Rng) : ℚ × Rng := (r.vals r.idx, { r with idx := r.idx + 1 })

/-- Tuning state of the path generator (pather.js class Pather):
controller plus the Markov-policy tuning fields used by path planning. -/
structure Pather where
  ctrl : CharacterController
  moveProbability : ℚ := 4/5
  backtrackProbability : ℚ := 9/20
  jumpDistribution : ℤ → ℚ
  landDistribution : ℤ → ℚ

/-- Mutable result fields of the Pather (successfulPath, lastAttempt). -/
structure PatherResults where
  successfulPath : Option (List CharacterState) := Option.none
  lastAttempt : Option (List CharacterState) := Option.none

/-- Markov policy: generate a simulated input from the current state
(pather.js selectInputForState, lines 429-454).  The source writes a
fresh facing into the current state object when facing is neutral, so
the possibly-updated state is returned alongside the input. -/
def selectInputForState (P : Pather) (state : CharacterState) (jumpLimit : ℚ)
    (rng : Rng) : InputState × CharacterState × Rng :=
  let r1 := rng.next
  let moved :=
    if r1.1 < P.moveProbability then
      let upd :=
        if state.facing = 0 then
          let r2 := r1.2.next
          ({ state with facing := if r2.1 < P.backtrackProbability then -1 else 1 }, r2.2)
        else (state, r1.2)
      (upd.1, (upd.1.facing : ℚ), upd.2)
    else (state, (0:ℚ), r1.2)
  let state := moved.1
  let rng := moved.2.2
  let jmp :=
    if jumpLimit ≤ state.y then
      if state.isOnGround P.ctrl.coyoteFrames then
        let r3 := rng.next
        (decide (r3.1 < P.jumpDistribution state.framesOnGround), r3.2)
      else (false, rng)
    else (false, rng)
  ({ x := moved.2.1, jump := jmp.1 }, state, jmp.2)

/-- Floor placement scan (pather.js lines 556-562): place a solid
reservation under each footprint column unless that cell is a protected
player reservation above the fall limit; report whether anything was
placed. -/
def placeFloorLoop (m : MapChunk) (bottom fallLimit : ℤ) (lo : ℤ) :
    ℕ → MapChunk × Bool
  | 0 => (m, false)
  | n+1 =>
    if fallLimit < bottom ∨ m.getTileAt lo bottom ≠ Tile.playerReservation then
      let m' := m.place Tile.solidReservation lo bottom
      ((placeFloorLoop m' bottom fallLimit (lo+1) n).1, true)
    else
      placeFloorLoop m bottom fallLimit (lo+1) n

/-- Outcome of one simulated frame of an attempt. -/
structure FrameResult where
  movedState : CharacterState
  state : CharacterState
  map : MapChunk
  rng : Rng
  wasOnGround : Bool
  left : ℤ
  top : ℤ
  right : ℤ
  bottom : ℤ

/-- One simulated frame of an attempt before the footprint marking
(pather.js lines 523-577): sample input, suppress jumps near the start,
step the physics, resolve collisions, and do the floor bookkeeping.
The movedState field is the current path entry after the input sampler
possibly wrote a fresh facing into it. -/
def attemptStepCore (P : Pather) (fallLimit : ℤ) (jumpLimit : ℚ)
    (pathLen : ℕ) (state : CharacterState) (m : MapChunk) (rng : Rng)
    (wasOnGround : Bool) : FrameResult :=
  let sel := selectInputForState P state jumpLimit rng
  let state := sel.2.1
  let rng := sel.2.2
  let nearStart := decide (state.x < 2) && decide (pathLen < 90)
  let input := { sel.1 with jump := sel.1.jump && !nearStart }
  let newState := P.ctrl.step state input
  let hc := P.ctrl.handleCollision newState m
  let newState := hc.1
  let rep := hc.2
  if newState.isFalling then
    let nf :=
      if wasOnGround then
        if nearStart then (true, rng)
        else
          let r := rng.next
          (decide (P.jumpDistribution state.framesOnGround ≤ r.1), r.2)
      else
        if fallLimit < rep.bottom then (true, rng)
        else
          let r := rng.next
          (decide (r.1 < P.landDistribution newState.framesSinceGround), r.2)
    if nf.1 then
      let pf := placeFloorLoop m rep.bottom fallLimit rep.left
                  (rep.right + 1 - rep.left).toNat
      if pf.2 then
        let hc2 := P.ctrl.handleCollision newState pf.1
        { movedState := state, state := hc2.1, map := pf.1, rng := nf.2,
          wasOnGround := true, left := hc2.2.left, top := hc2.2.top,
          right := hc2.2.right, bottom := hc2.2.bottom }
      else
        { movedState := state, state := newState, map := pf.1, rng := nf.2,
          wasOnGround := false, left := rep.left, top := rep.top,
          right := rep.right, bottom := rep.bottom }
    else
      { movedState := state, state := newState, map := m, rng := nf.2,
        wasOnGround := false, left := rep.left, top := rep.top,
        right := rep.right, bottom := rep.bottom }
  else
    { movedState := state, state := newState, map := m, rng := rng,
      wasOnGround := newState.isOnGround 0, left := rep.left, top := rep.top,
      right := rep.right, bottom := rep.bottom }

/-- One full simulated frame (pather.js lines 523-580): the core frame
followed by marking the occupied footprint with the player reservation
symbol; the fill reaches down to the bottom row of the footprint only
when the character is not falling. -/
def attemptStep (P : Pather) (fallLimit : ℤ) (jumpLimit : ℚ)
    (pathLen : ℕ) (state : CharacterState) (m : MapChunk) (rng : Rng)
    (wasOnGround : Bool) : FrameResult :=
  let c := attemptStepCore P fallLimit jumpLimit pathLen state m rng wasOnGround
  let yMax := if 0 < c.state.velY then c.top else c.bottom
  { c with map := c.map.fill Tile.playerReservation c.left c.top c.right yMax }

/-- Goal test of an attempt (pather.js line 588): at the rightmost
column and grounded. -/
def reachedGoal (columns : ℤ) (s : CharacterState) : Bool :=
  decide ((columns : ℚ) - 1 ≤ s.x) && s.isOnGround 0

/-- Result of one attempt or of a whole planning call. -/
structure AttemptOutcome where
  result : Option (List CharacterState)
  res : PatherResults
  map : MapChunk
  rng : Rng

/-- Frame loop of one attempt (pather.js lines 523-595): run frames
until the goal is reached (returning the full path) or the tick budget
runs out (recording the failed path in lastAttempt). -/
def attemptLoop (P : Pather) (columns fallLimit : ℤ) (jumpLimit : ℚ)
    (res : PatherResults) :
    ℕ → List CharacterState → CharacterState → MapChunk → Rng → Bool →
    AttemptOutcome
  | 0, prev, state, m, rng, _ =>
      { result := Option.none,
        res := { res with lastAttempt := some (prev ++ [state]) },
        map := m, rng := rng }
  | n+1, prev, state, m, rng, wog =>
      let c := attemptStep P fallLimit jumpLimit (prev.length + 1) state m rng wog
      let prev' := prev ++ [c.movedState]
      if reachedGoal columns c.state then
        { result := some (prev' ++ [c.state]), res := res, map := c.map, rng := c.rng }
      else
        attemptLoop P columns fallLimit jumpLimit res n prev' c.state c.map c.rng c.wasOnGround

/-- Frame budget of one attempt: 100 simulated seconds at 30 frames per
second (pather.js lines 506-507). -/
def ticksBudget : ℕ := 3000

/-- One attempt to plan a path from the left side of the map to the
right (pather.js attemptPath, lines 489-596). -/
def attemptPath (P : Pather) (res : PatherResults) (m : MapChunk)
    (rng : Rng) : AttemptOutcome :=
  let columns := m.columns
  let rows := m.rows
  let fallLimit := rows - 2
  let jumpLimit := P.ctrl.jumpHeight
  let r := rng.next
  let y0 : ℚ := jumpLimit + (⌊r.1 * ((fallLimit : ℚ) - jumpLimit)⌋ : ℤ) + 1 - P.ctrl.height
  let state : CharacterState :=
    { x := 0, y := y0, velX := 0, velY := 0,
      framesSinceGround := 1, framesOnGround := 1, facing := 1 }
  let bottom := state.bottomTile P.ctrl.height
  let m' := (m.place Tile.solidReservation 0 (bottom + 1)).place Tile.playerReservation 0 bottom
  attemptLoop P columns fallLimit jumpLimit res ticksBudget [] state m' r.2 true

/-- Result of a whole planPath call. -/
structure PlanOutcome where
  success : Bool
  res : PatherResults
  map : MapChunk
  rng : Rng

/-- Attempt retry loop (pather.js planPath, lines 462-482): clear the
map, try an attempt, record the successful path and stop, or retry up
to the attempt limit and record the failure. -/
def planPathLoop (P : Pather) :
    ℕ → PatherResults → MapChunk → Rng → PlanOutcome
  | 0, res, m, rng =>
      { success := false, res := { res with successfulPath := Option.none },
        map := m, rng := rng }
  | n+1, res, m, rng =>
      let a := attemptPath P res m.clear rng
      match a.result with
      | some path =>
          { success := true, res := { a.res with successfulPath := some path },
            map := a.map, rng := a.rng }
      | Option.none => planPathLoop P n a.res a.map a.rng

/-- Repeatedly attempts to plan a path (pather.js planPath). -/
def planPath (P : Pather) (res : PatherResults) (m : MapChunk) (rng : Rng)
    (attemptLimit : ℕ) : PlanOutcome :=
  planPathLoop P attemptLimit res m rng

/-- The planPath call with its default attempt limit of 50. -/
def planPathDefault (P : Pather) (res : PatherResults) (m : MapChunk)
    (rng : Rng) : PlanOutcome :=
  planPath P res m rng 50

/-- State threaded between attempts of one planning call. -/
structure PlanState where
  res : PatherResults
  map : MapChunk
  rng : Rng

/-- One attempt of the retry loop: clear the map and run attemptPath
(the body of the loop in pather.js planPath, lines 465-468). -/
def runOneAttempt (P : Pather) (st : PlanState) : AttemptOutcome :=
  attemptPath P st.res st.map.clear st.rng

/-- The threaded state after one (failed) attempt. -/
def afterFailedAttempt (P : Pather) (st : PlanState) : PlanState :=
  let a := runOneAttempt P st
  { res := a.res, map := a.map, rng := a.rng }

/-- Outcome of the attempt at position i in the attempt sequence of one
planning call, counting the random values and map state consumed by the
earlier attempts. -/
def attemptAt (P : Pather) (st : PlanState) (i : ℕ) :
    Option (List CharacterState) :=
  (runOneAttempt P ((afterFailedAttempt P)^[i] st)).result

/-- C1 postcondition, as a boolean: when the call succeeded, the
recorded successfulPath is a non-empty path whose final state is at the
rightmost column and grounded. -/
def successPost (columns : ℤ) (out : PlanOutcome) : Bool :=
  !out.success ||
    (match out.res.successfulPath with
     | Option.none => false
     | some p => !p.isEmpty && reachedGoal columns (p.getLastD {}))

lemma place_columns (m : MapChunk) (t : Tile) (x y : ℤ) :
    (m.place t x y).columns = m.columns := by
  unfold MapChunk.place
  split <;> rfl

lemma fill_columns (m : MapChunk) (t : Tile) (a b c d : ℤ) :
    (m.fill t a b c d).columns = m.columns := by
  unfold MapChunk.fill
  simp only []
  split
  · rfl
  · split
    · rfl
    · rfl

lemma place_rows (m : MapChunk) (t : Tile) (x y : ℤ) :
    (m.place t x y).rows = m.rows := by
  unfold MapChunk.place
  split <;> rfl

lemma fill_rows (m : MapChunk) (t : Tile) (a b c d : ℤ) :
    (m.fill t a b c d).rows = m.rows := by
  unfold MapChunk.fill
  simp only []
  split
  · rfl
  · split
    · rfl
    · rfl

lemma clear_columns (m : MapChunk) : m.clear.columns = m.columns :=
  fill_columns m Tile.none 0 0 m.columns m.rows

lemma placeFloorLoop_columns (bottom fallLimit : ℤ) :
    ∀ (n : ℕ) (m : MapChunk) (lo : ℤ),
      (placeFloorLoop m bottom fallLimit lo n).1.columns = m.columns := by
  intro n
  induction n with
  | zero => intro m lo; rfl
  | succ k ih =>
    intro m lo
    unfold placeFloorLoop
    split
    · rw [ih, place_columns]
    · rw [ih]

lemma attemptStep_columns (P : Pather) (fallLimit : ℤ) (jumpLimit : ℚ)
    (pathLen : ℕ) (state : CharacterState) (m : MapChunk) (rng : Rng)
    (wog : Bool) :
    (attemptStep P fallLimit jumpLimit pathLen state m rng wog).map.columns
      = m.columns := by
  unfold attemptStep attemptStepCore
  simp only
  repeat' split
  all_goals simp only [fill_columns, placeFloorLoop_columns]

lemma attemptLoop_columns (P : Pather) (columns fallLimit : ℤ)
    (jumpLimit : ℚ) (res : PatherResults) :
    ∀ (fuel : ℕ) (prev : List CharacterState) (st : CharacterState)
      (m : MapChunk) (rng : Rng) (wog : Bool),
      (attemptLoop P columns fallLimit jumpLimit res fuel prev st m rng wog).map.columns
        = m.columns := by
  intro fuel
  induction fuel with
  | zero => intro prev st m rng wog; rfl
  | succ n ih =>
    intro prev st m rng wog
    unfold attemptLoop
    simp only
    split
    · exact attemptStep_columns ..
    · rw [ih, attemptStep_columns]

lemma attemptPath_columns (P : Pather) (res : PatherResults) (m : MapChunk)
    (rng : Rng) : (attemptPath P res m rng).map.columns = m.columns := by
  unfold attemptPath
  simp only
  rw [attemptLoop_columns, place_columns, place_columns]

lemma afterFailedAttempt_columns (P : Pather) (st : PlanState) :
    (afterFailedAttempt P st).map.columns = st.map.columns := by
  unfold afterFailedAttempt runOneAttempt
  simp only
  rw [attemptPath_columns, clear_columns]

/-- A successful attempt loop returns a non-empty path whose last state
satisfies the goal test, and leaves the result fields untouched. -/
lemma attemptLoop_success_post (P : Pather) (columns fallLimit : ℤ)
    (jumpLimit : ℚ) (res : PatherResults) :
    ∀ (fuel : ℕ) (prev : List CharacterState) (st : CharacterState)
      (m : MapChunk) (rng : Rng) (wog : Bool) (p : List CharacterState),
      (attemptLoop P columns fallLimit jumpLimit res fuel prev st m rng wog).result = some p →
      p ≠ [] ∧ reachedGoal columns (p.getLastD {}) = true ∧
      (attemptLoop P columns fallLimit jumpLimit res fuel prev st m rng wog).res = res := by
  intro fuel
  induction fuel with
  | zero =>
    intro prev st m rng wog p h
    simp [attemptLoop] at h
  | succ n ih =>
    intro prev st m rng wog p h
    unfold attemptLoop at h ⊢
    simp only at h ⊢
    split at h
    · next hg =>
      simp only [Option.some.injEq] at h
      subst h
      rw [if_pos hg]
      refine ⟨by simp, ?_, rfl⟩
      rw [List.getLastD_concat]
      exact hg
    · next hg =>
      rw [if_neg hg]
      exact ih _ _ _ _ _ _ h

/-- An attempt loop that exhausts its budget records a non-empty path
in lastAttempt. -/
lemma attemptLoop_timeout_post (P : Pather) (columns fallLimit : ℤ)
    (jumpLimit : ℚ) (res : PatherResults) :
    ∀ (fuel : ℕ) (prev : List CharacterState) (st : CharacterState)
      (m : MapChunk) (rng : Rng) (wog : Bool),
      (attemptLoop P columns fallLimit jumpLimit res fuel prev st m rng wog).result = Option.none →
      ∃ p, (attemptLoop P columns fallLimit jumpLimit res fuel prev st m rng wog).res
            = { res with lastAttempt := some p } ∧ p ≠ [] := by
  intro fuel
  induction fuel with
  | zero =>
    intro prev st m rng wog _
    exact ⟨prev ++ [st], rfl, by simp⟩
  | succ n ih =>
    intro prev st m rng wog h
    unfold attemptLoop at h ⊢
    simp only at h ⊢
    split at h
    · simp at h
    · next hg =>
      rw [if_neg hg]
      exact ih _ _ _ _ _ h

/-- A successful attemptPath returns a non-empty path ending at the
goal, and does not touch the result fields. -/
lemma attemptPath_success_post (P : Pather) (res : PatherResults)
    (m : MapChunk) (rng : Rng) (p : List CharacterState)
    (h : (attemptPath P res m rng).result = some p) :
    p ≠ [] ∧ reachedGoal m.columns (p.getLastD {}) = true ∧
    (attemptPath P res m rng).res = res := by
  unfold attemptPath at h ⊢
  simp only at h ⊢
  exact attemptLoop_success_post P m.columns (m.rows - 2) P.ctrl.jumpHeight res
    ticksBudget _ _ _ _ _ p h

/-- A failed attemptPath records a non-empty path in lastAttempt. -/
lemma attemptPath_timeout_post (P : Pather) (res : PatherResults)
    (m : MapChunk) (rng : Rng)
    (h : (attemptPath P res m rng).result = Option.none) :
    ∃ p, (attemptPath P res m rng).res = { res with lastAttempt := some p } ∧ p ≠ [] := by
  unfold attemptPath at h ⊢
  simp only at h ⊢
  exact attemptLoop_timeout_post P m.columns (m.rows - 2) P.ctrl.jumpHeight res
    ticksBudget _ _ _ _ _ h

/-- Unfolding equation of the retry loop at a positive attempt count,
stated so later proofs avoid deep reduction of the attempt body. -/
lemma planPathLoop_succ (P : Pather) (n : ℕ) (res : PatherResults)
    (m : MapChunk) (rng : Rng) :
    planPathLoop P (n+1) res m rng =
      match (attemptPath P res m.clear rng).result with
      | some path =>
          { success := true,
            res := { (attemptPath P res m.clear rng).res with successfulPath := some path },
            map := (attemptPath P res m.clear rng).map,
            rng := (attemptPath P res m.clear rng).rng }
      | Option.none =>
          planPathLoop P n (attemptPath P res m.clear rng).res
            (attemptPath P res m.clear rng).map (attemptPath P res m.clear rng).rng := rfl

/-- Success of the retry loop is equivalent to some attempt in the
sequence succeeding, and a recorded success is a non-empty path ending
at the goal. -/
lemma planPathLoop_spec (P : Pather) :
    ∀ (limit : ℕ) (st : PlanState),
      ((planPathLoop P limit st.res st.map st.rng).success
        = (List.range limit).any (fun i => (attemptAt P st i).isSome)) ∧
      successPost st.map.columns (planPathLoop P limit st.res st.map st.rng) = true := by
  intro limit
  induction limit with
  | zero =>
    intro st
    exact ⟨rfl, rfl⟩
  | succ n ih =>
    intro st
    have hshift : ((fun i => (attemptAt P st i).isSome) ∘ Nat.succ)
        = (fun i => (attemptAt P (afterFailedAttempt P st) i).isSome) := by
      funext i
      show (attemptAt P st (i+1)).isSome = _
      unfold attemptAt
      rw [Function.iterate_succ_apply]
    have hrange : (List.range (n+1)).any (fun i => (attemptAt P st i).isSome)
        = ((attemptAt P st 0).isSome
            || (List.range n).any (fun i => (attemptAt P (afterFailedAttempt P st) i).isSome)) := by
      rw [List.range_succ_eq_map, List.any_cons, List.any_map, hshift]
    rw [planPathLoop_succ]
    rcases ha : (attemptPath P st.res st.map.clear st.rng).result with _ | path
    all_goals simp only []
    · have ha0 : (attemptAt P st 0).isSome = false := by
        unfold attemptAt runOneAttempt
        simp [Function.iterate_zero_apply, ha]
      have ih' := ih (afterFailedAttempt P st)
      have hcols := afterFailedAttempt_columns P st
      constructor
      · rw [hrange, ha0, Bool.false_or]
        exact ih'.1
      · rw [← hcols]
        exact ih'.2
    · have hpost := attemptPath_success_post P st.res st.map.clear st.rng path ha
      have ha0 : (attemptAt P st 0).isSome = true := by
        unfold attemptAt runOneAttempt
        simp [Function.iterate_zero_apply, ha]
      constructor
      · rw [hrange, ha0, Bool.true_or]
      · unfold successPost
        simp only
        rw [clear_columns] at hpost
        have hne : path.isEmpty = false := by
          rcases path with _ | ⟨a, t⟩
          · exact absurd rfl hpost.1
          · rfl
        have hlast := hpost.2.1
        rw [List.getLastD_eq_getLast?] at hlast
        simp [hne, hlast]

/-- C1: planPath returns true exactly when some attempt within the
attempt limit reaches the success condition (rightmost column, grounded)
and, on success, the recorded successfulPath is non-empty with its final
state at the goal; the default attempt limit is 50. -/
theorem c1_planPath (P : Pather) (res : PatherResults) (m : MapChunk)
    (rng : Rng) (limit : ℕ) :
    ((planPath P res m rng limit).success
        = (List.range limit).any
            (fun i => (attemptAt P { res := res, map := m, rng := rng } i).isSome)) ∧
    successPost m.columns (planPath P res m rng limit) = true ∧
    planPathDefault P res m rng = planPath P res m rng 50 := by
  have h := planPathLoop_spec P limit { res := res, map := m, rng := rng }
  exact ⟨h.1, h.2, rfl⟩

/-- Tile solidity as a predicate on tile values (the switch in
tilemap.js isSolid). -/
def isSolidTile (t : Tile) : Bool :=
  match t with
  | Tile.solid => true
  | Tile.exclamationBox => true
  | _ => false

lemma isSolid_eq_isSolidTile (m : MapChunk) (x y : ℤ) :
    m.isSolid x y = isSolidTile (m.getTileAt x y) := rfl

/-- Reading a map after place yields the placed tile or the old one. -/
lemma getTileAt_place_cases (m : MapChunk) (t : Tile) (x y a b : ℤ) :
    (m.place t x y).getTileAt a b = t ∨
    (m.place t x y).getTileAt a b = m.getTileAt a b := by
  unfold MapChunk.place MapChunk.getTileAt
  split
  · simp only
    split
    · exact Or.inr rfl
    · split
      · exact Or.inr rfl
      · split
        · exact Or.inl rfl
        · exact Or.inr rfl
  · exact Or.inr rfl

/-- Reading a map after fill yields the filled tile or the old one. -/
lemma getTileAt_fill_cases (m : MapChunk) (t : Tile) (x0 y0 x1 y1 a b : ℤ) :
    (m.fill t x0 y0 x1 y1).getTileAt a b = t ∨
    (m.fill t x0 y0 x1 y1).getTileAt a b = m.getTileAt a b := by
  unfold MapChunk.fill
  simp only []
  split
  · exact Or.inr rfl
  · split
    · exact Or.inr rfl
    · unfold MapChunk.getTileAt
      simp only
      split
      · exact Or.inr rfl
      · split
        · exact Or.inr rfl
        · exact ite_eq_or_eq _ _ _

/-- Out-of-bounds reads return the empty tile. -/
lemma getTileAt_oob (m : MapChunk) (a b : ℤ)
    (h : a < 0 ∨ m.columns ≤ a ∨ b < 0 ∨ m.rows ≤ b) :
    m.getTileAt a b = Tile.none := by
  unfold MapChunk.getTileAt
  by_cases h1 : a < 0 ∨ m.columns ≤ a
  · rw [if_pos h1]
  · rw [if_neg h1, if_pos (by omega)]

/-- Reading inside the requested rectangle of an in-bounds cell after a
fill yields the filled tile (the falsy-zero quirk of the source cannot
exclude such a cell). -/
lemma getTileAt_fill_in (m : MapChunk) (t : Tile) (x0 y0 x1 y1 a b : ℤ)
    (ha0 : 0 ≤ a) (hac : a < m.columns) (hb0 : 0 ≤ b) (hbr : b < m.rows)
    (h1 : x0 ≤ a) (h2 : a ≤ x1) (h3 : y0 ≤ b) (h4 : b ≤ y1) :
    (m.fill t x0 y0 x1 y1).getTileAt a b = t := by
  have hma : max 0 x0 ≤ a := max_le ha0 h1
  have hmb : max 0 y0 ≤ b := max_le hb0 h3
  have h0a : (0:ℤ) ≤ max 0 x0 := le_max_left 0 x0
  have h0b : (0:ℤ) ≤ max 0 y0 := le_max_left 0 y0
  unfold MapChunk.fill MapChunk.getTileAt
  simp only []
  rw [if_neg (show ¬ m.columns ≤ max 0 x0 by omega)]
  rw [if_neg (show ¬ m.rows ≤ max 0 y0 by omega)]
  simp only
  rw [if_neg (show ¬ (a < 0 ∨ m.columns ≤ a) by omega)]
  rw [if_neg (show ¬ (b < 0 ∨ m.rows ≤ b) by omega)]
  rw [if_pos ?_]
  refine ⟨hma, ?_, hmb, ?_⟩
  · split
    · next h => omega
    · split
      · next h => omega
      · omega
  · split
    · next h => omega
    · split
      · next h => omega
      · omega

/-- A map with no solid cells. -/
def solidFree (m : MapChunk) : Prop := ∀ a b, m.isSolid a b = false

/-- Every read of a cleared map yields the empty tile. -/
lemma getTileAt_clear (m : MapChunk) (a b : ℤ) :
    m.clear.getTileAt a b = Tile.none := by
  by_cases h : a < 0 ∨ m.columns ≤ a ∨ b < 0 ∨ m.rows ≤ b
  · apply getTileAt_oob
    unfold MapChunk.clear
    rwa [fill_columns, fill_rows]
  · push_neg at h
    exact getTileAt_fill_in m Tile.none 0 0 m.columns m.rows a b
      (by omega) (by omega) (by omega) (by omega)
      (by omega) (by omega) (by omega) (by omega)

/-- Clearing a map leaves no solid cells. -/
lemma solidFree_clear (m : MapChunk) : solidFree m.clear := by
  intro a b
  rw [isSolid_eq_isSolidTile, getTileAt_clear]
  rfl

/-- Placing a non-solid tile preserves solid-freeness. -/
lemma solidFree_place (m : MapChunk) (t : Tile) (x y : ℤ)
    (ht : isSolidTile t = false) (h : solidFree m) :
    solidFree (m.place t x y) := by
  intro a b
  rw [isSolid_eq_isSolidTile]
  rcases getTileAt_place_cases m t x y a b with hc | hc
  · rw [hc, ht]
  · rw [hc, ← isSolid_eq_isSolidTile]
    exact h a b

/-- Filling with a non-solid tile preserves solid-freeness. -/
lemma solidFree_fill (m : MapChunk) (t : Tile) (x0 y0 x1 y1 : ℤ)
    (ht : isSolidTile t = false) (h : solidFree m) :
    solidFree (m.fill t x0 y0 x1 y1) := by
  intro a b
  rw [isSolid_eq_isSolidTile]
  rcases getTileAt_fill_cases m t x0 y0 x1 y1 a b with hc | hc
  · rw [hc, ht]
  · rw [hc, ← isSolid_eq_isSolidTile]
    exact h a b

/-- A scan over an everywhere-false predicate finds nothing. -/
lemma findFirstInt_none (p : ℤ → Bool) (hp : ∀ x, p x = false) :
    ∀ (n : ℕ) (lo : ℤ), findFirstInt p lo n = Option.none := by
  intro n
  induction n with
  | zero => intro lo; rfl
  | succ k ih =>
    intro lo
    unfold findFirstInt
    rw [hp lo]
    simp only [Bool.false_eq_true, if_false]
    exact ih (lo + 1)

/-- On a map with no solid cells, collision handling changes nothing
and reports the raw occupied bounds. -/
lemma handleCollision_solidFree (c : CharacterController)
    (s : CharacterState) (m : MapChunk) (h : solidFree m) :
    c.handleCollision s m =
      (s, { collided := false, left := s.leftTile, right := s.rightTile c.width,
            top := s.topTile, bottom := s.bottomTile c.height }) := by
  have hv : c.resolveVertical s m =
      (s, { collided := false, left := s.leftTile, right := s.rightTile c.width,
            top := s.topTile, bottom := s.bottomTile c.height }) := by
    unfold CharacterController.resolveVertical
    simp only []
    split
    · rw [findFirstInt_none _ (fun x => by rw [h x (s.bottomTile c.height)]; rfl)]
    · split
      · rw [findFirstInt_none _ (fun x => by rw [h x s.topTile]; rfl)]
      · rfl
  unfold CharacterController.handleCollision
  rw [hv]
  unfold CharacterController.resolveHorizontal
  simp only []
  split
  · rw [findFirstInt_none _ (fun y => h (s.rightTile c.width) y)]
  · split
    · rw [findFirstInt_none _ (fun y => h s.leftTile y)]
    · rfl

/-- The physics step advances the frames-since-ground counter. -/
lemma step_framesSinceGround (c : CharacterController) (s : CharacterState)
    (input : InputState) :
    (c.step s input).framesSinceGround = s.framesSinceGround + 1 := by
  unfold CharacterController.step CharacterState.step CharacterState.jump
    CharacterState.accelerateToward
  simp only
  repeat' split
  all_goals rfl

/-- The input sampler does not change the frames-since-ground counter. -/
lemma selectInput_framesSinceGround (P : Pather) (s : CharacterState)
    (jumpLimit : ℚ) (rng : Rng) :
    (selectInputForState P s jumpLimit rng).2.1.framesSinceGround
      = s.framesSinceGround := by
  unfold selectInputForState
  simp only
  repeat' split
  all_goals rfl

/-- The floor-placement scan places only solid-reservation markers, so
it preserves solid-freeness. -/
lemma placeFloorLoop_solidFree (bottom fallLimit : ℤ) :
    ∀ (n : ℕ) (m : MapChunk) (lo : ℤ), solidFree m →
      solidFree (placeFloorLoop m bottom fallLimit lo n).1 := by
  intro n
  induction n with
  | zero => intro m lo h; exact h
  | succ k ih =>
    intro m lo h
    unfold placeFloorLoop
    split
    · exact ih _ _ (solidFree_place m Tile.solidReservation lo bottom rfl h)
    · exact ih _ _ h

/-- One attempt frame on a solid-free map: the map stays solid-free and
the new state's frames-since-ground counter is the old one plus one. -/
lemma attemptStep_solidFree (P : Pather) (fallLimit : ℤ) (jumpLimit : ℚ)
    (pathLen : ℕ) (state : CharacterState) (m : MapChunk) (rng : Rng)
    (wog : Bool) (h : solidFree m) :
    solidFree (attemptStep P fallLimit jumpLimit pathLen state m rng wog).map ∧
    (attemptStep P fallLimit jumpLimit pathLen state m rng wog).state.framesSinceGround
      = state.framesSinceGround + 1 := by
  have hsel := selectInput_framesSinceGround P state jumpLimit rng
  unfold attemptStep attemptStepCore
  simp only
  rw [handleCollision_solidFree _ _ _ h]
  simp only
  repeat' split
  all_goals constructor
  all_goals first
    | exact solidFree_fill _ Tile.playerReservation _ _ _ _ rfl h
    | exact solidFree_fill _ Tile.playerReservation _ _ _ _ rfl
        (placeFloorLoop_solidFree _ _ _ _ _ h)
    | (rw [handleCollision_solidFree _ _ _ (placeFloorLoop_solidFree _ _ _ _ _ h)]
       simp only
       rw [step_framesSinceGround, hsel])
    | (simp only
       rw [step_framesSinceGround, hsel])

/-- On a solid-free map the goal test never passes: the character can
never land, so frames-since-ground stays positive and isOnGround fails.
The attempt loop therefore always exhausts its budget. -/
lemma attemptLoop_solidFree_none (P : Pather) (columns fallLimit : ℤ)
    (jumpLimit : ℚ) (res : PatherResults) :
    ∀ (fuel : ℕ) (prev : List CharacterState) (st : CharacterState)
      (m : MapChunk) (rng : Rng) (wog : Bool), solidFree m →
      1 ≤ st.framesSinceGround →
      (attemptLoop P columns fallLimit jumpLimit res fuel prev st m rng wog).result
        = Option.none := by
  intro fuel
  induction fuel with
  | zero => intro prev st m rng wog _ _; rfl
  | succ n ih =>
    intro prev st m rng wog hm hfsg
    have hstep := attemptStep_solidFree P fallLimit jumpLimit (prev.length + 1) st m rng wog hm
    have h1 : ¬ (((st.framesSinceGround + 1 : ℤ) : ℚ) ≤ 0) := by
      push_neg
      have h3 : (1 : ℚ) ≤ ((st.framesSinceGround + 1 : ℤ) : ℚ) := by
        exact_mod_cast (by omega : (1:ℤ) ≤ st.framesSinceGround + 1)
      linarith
    have hA : (attemptStep P fallLimit jumpLimit (prev.length + 1) st m rng wog).state.isOnGround 0
        = false := by
      unfold CharacterState.isOnGround
      rw [hstep.2, decide_eq_false h1, Bool.and_false]
    have hgoal : reachedGoal columns
        (attemptStep P fallLimit jumpLimit (prev.length + 1) st m rng wog).state = false := by
      unfold reachedGoal
      rw [hA, Bool.and_false]
    unfold attemptLoop
    simp only
    rw [hgoal]
    simp only [Bool.false_eq_true, if_false]
    exact ih _ _ _ _ _ hstep.1 (by rw [hstep.2]; omega)

/-- Every attempt on a solid-free map fails: nothing the pather places
(solid reservations, player reservations) is solid in the sense of
MapChunk.isSolid, so the character can never become grounded again and
the goal test never passes. -/
lemma attemptPath_solidFree_none (P : Pather) (res : PatherResults)
    (m : MapChunk) (rng : Rng) (h : solidFree m) :
    (attemptPath P res m rng).result = Option.none := by
  unfold attemptPath
  simp only
  apply attemptLoop_solidFree_none
  · exact solidFree_place _ Tile.playerReservation _ _ rfl
      (solidFree_place _ Tile.solidReservation _ _ rfl h)
  · exact le_rfl

/-- Every attempt of every planning call fails: planPath clears the map
first, the cleared map is solid-free, and solid-freeness is preserved
throughout an attempt.  In this source the path generator can therefore
never succeed (handleCollision is called with the MapChunk itself, whose
isSolid does not recognise the string reservation markers). -/
lemma attemptAt_eq_none (P : Pather) (st : PlanState) (i : ℕ) :
    attemptAt P st i = Option.none := by
  unfold attemptAt runOneAttempt
  exact attemptPath_solidFree_none P _ _ _ (solidFree_clear _)

/-- When every attempt in the sequence fails, the retry loop reports
failure, clears successfulPath, and leaves the last failed attempt's
non-empty path in lastAttempt. -/
lemma planPathLoop_allfail (P : Pather) :
    ∀ (limit : ℕ) (st : PlanState), 0 < limit →
      (∀ i, i < limit → attemptAt P st i = Option.none) →
      (planPathLoop P limit st.res st.map st.rng).success = false ∧
      (planPathLoop P limit st.res st.map st.rng).res.successfulPath = Option.none ∧
      ∃ p, (planPathLoop P limit st.res st.map st.rng).res.lastAttempt = some p ∧ p ≠ [] := by
  intro limit
  induction limit with
  | zero =>
    intro st h
    omega
  | succ n ih =>
    intro st _ hfail
    have ha : (attemptPath P st.res st.map.clear st.rng).result = Option.none :=
      hfail 0 (by omega)
    rw [planPathLoop_succ, ha]
    simp only []
    rcases n with _ | k
    · obtain ⟨p, hres, hp⟩ := attemptPath_timeout_post P st.res st.map.clear st.rng ha
      refine ⟨rfl, rfl, p, ?_, hp⟩
      show (attemptPath P st.res st.map.clear st.rng).res.lastAttempt = some p
      rw [hres]
    · have hfail' : ∀ i, i < k + 1 →
          attemptAt P (afterFailedAttempt P st) i = Option.none := by
        intro i hi
        have hstep := hfail (i+1) (by omega)
        unfold attemptAt at hstep ⊢
        rw [Function.iterate_succ_apply] at hstep
        exact hstep
      exact ih (afterFailedAttempt P st) (by omega) hfail'

/-- C7: when every attempt within the limit exhausts its frame budget,
planPath returns false, successfulPath is null, and lastAttempt holds a
non-empty failed path for inspection. -/
theorem c7_planPath_failure (P : Pather) (res : PatherResults)
    (m : MapChunk) (rng : Rng) (limit : ℕ) (hlim : 0 < limit)
    (hfail : ∀ i, i < limit →
      attemptAt P { res := res, map := m, rng := rng } i = Option.none) :
    (planPath P res m rng limit).success = false ∧
    (planPath P res m rng limit).res.successfulPath = Option.none ∧
    ∃ p, (planPath P res m rng limit).res.lastAttempt = some p ∧ p ≠ [] :=
  planPathLoop_allfail P limit { res := res, map := m, rng := rng } hlim hfail

/-- Concrete inputs for the pather witnesses. -/
def wPather : Pather :=
  { ctrl := {}, jumpDistribution := fun _ => 0, landDistribution := fun _ => 0 }

/-- Concrete empty 2 by 5 map for the pather witnesses. -/
def wMap : MapChunk :=
  { columns := 2, rows := 5, tiles := fun _ _ => Tile.none }

/-- Concrete random stream for the pather witnesses. -/
def wRng : Rng := { vals := fun _ => 0, idx := 0 }

/-- Witness for C7: with an attempt budget of one and a configuration
that never reaches the far edge within the simulated-seconds budget,
planPath returns false and lastAttempt is non-empty. -/
theorem c7_witness :
    (planPath wPather {} wMap wRng 1).success = false ∧
    (planPath wPather {} wMap wRng 1).res.successfulPath = Option.none ∧
    ∃ p, (planPath wPather {} wMap wRng 1).res.lastAttempt = some p ∧ p ≠ [] :=
  c7_planPath_failure wPather {} wMap wRng 1 (by norm_num)
    (fun i _ => attemptAt_eq_none wPather { res := {}, map := wMap, rng := wRng } i)

/-- Specification of the lastAttempt field after a planning call: the
incoming value until an attempt fails, then the failed attempt's
recording; a successful attempt stops the loop without touching it. -/
def lastAttemptSpec (P : Pather) : ℕ → PlanState → Option (List CharacterState)
  | 0, st => st.res.lastAttempt
  | k+1, st =>
      if (runOneAttempt P st).result.isSome then st.res.lastAttempt
      else lastAttemptSpec P k (afterFailedAttempt P st)

/-- Unfolding equation of lastAttemptSpec at a positive count. -/
lemma lastAttemptSpec_succ (P : Pather) (k : ℕ) (st : PlanState) :
    lastAttemptSpec P (k+1) st =
      if (runOneAttempt P st).result.isSome then st.res.lastAttempt
      else lastAttemptSpec P k (afterFailedAttempt P st) := rfl

/-- The retry loop's final lastAttempt value follows lastAttemptSpec. -/
lemma planPathLoop_lastAttempt (P : Pather) :
    ∀ (limit : ℕ) (st : PlanState),
      (planPathLoop P limit st.res st.map st.rng).res.lastAttempt
        = lastAttemptSpec P limit st := by
  intro limit
  induction limit with
  | zero => intro st; rfl
  | succ k ih =>
    intro st
    rw [planPathLoop_succ]
    rcases ha : (attemptPath P st.res st.map.clear st.rng).result with _ | path
    · have hspec : lastAttemptSpec P (k+1) st
          = lastAttemptSpec P k (afterFailedAttempt P st) := by
        rw [lastAttemptSpec_succ, show (runOneAttempt P st).result = Option.none from ha]
        rfl
      rw [hspec]
      exact ih (afterFailedAttempt P st)
    · have hres := (attemptPath_success_post P st.res st.map.clear st.rng path ha).2.2
      have hspec : lastAttemptSpec P (k+1) st = st.res.lastAttempt := by
        rw [lastAttemptSpec_succ, show (runOneAttempt P st).result = some path from ha]
        rfl
      rw [hspec]
      simp only
      show (attemptPath P st.res st.map.clear st.rng).res.lastAttempt = st.res.lastAttempt
      rw [hres]

/-- C10: a successful attempt leaves the result fields (in particular
lastAttempt) untouched; only an attempt that exhausts its frame budget
assigns lastAttempt (writing its own non-empty path); and the final
lastAttempt of a planning call is the incoming value carried through
the failed prefix of attempts, so after a success it still holds the
most recent failed attempt's path or the prior value when no attempt
has ever failed. -/
theorem c10_lastAttempt (P : Pather) (res : PatherResults) (m : MapChunk)
    (rng : Rng) (limit : ℕ) :
    (∀ p, (attemptPath P res m rng).result = some p →
      (attemptPath P res m rng).res = res) ∧
    ((attemptPath P res m rng).result = Option.none →
      ∃ p, (attemptPath P res m rng).res = { res with lastAttempt := some p } ∧ p ≠ []) ∧
    (planPath P res m rng limit).res.lastAttempt
      = lastAttemptSpec P limit { res := res, map := m, rng := rng } :=
  ⟨fun p h => (attemptPath_success_post P res m rng p h).2.2,
   fun h => attemptPath_timeout_post P res m rng h,
   planPathLoop_lastAttempt P limit { res := res, map := m, rng := rng }⟩

/-- C8 (amended): the input sampler never changes the position,
velocity, or frame counters of the current snapshot; it leaves facing
unchanged whenever facing is non-neutral, and when facing is neutral it
may write a fresh direction (0, -1 or 1) into the snapshot in place.
Entries already settled in the path (all but the most recent) are never
rewritten by later frames: a successful attempt loop only ever appends
to the incoming prefix. -/
theorem c8_snapshot_mutation (P : Pather) (s : CharacterState)
    (jumpLimit : ℚ) (rng : Rng) (columns fallLimit : ℤ)
    (res : PatherResults) :
    ((selectInputForState P s jumpLimit rng).2.1.x = s.x ∧
     (selectInputForState P s jumpLimit rng).2.1.y = s.y ∧
     (selectInputForState P s jumpLimit rng).2.1.velX = s.velX ∧
     (selectInputForState P s jumpLimit rng).2.1.velY = s.velY ∧
     (selectInputForState P s jumpLimit rng).2.1.framesSinceGround = s.framesSinceGround ∧
     (selectInputForState P s jumpLimit rng).2.1.framesOnGround = s.framesOnGround) ∧
    (s.facing ≠ 0 → (selectInputForState P s jumpLimit rng).2.1 = s) ∧
    (s.facing = 0 →
      (selectInputForState P s jumpLimit rng).2.1.facing = 0 ∨
      (selectInputForState P s jumpLimit rng).2.1.facing = -1 ∨
      (selectInputForState P s jumpLimit rng).2.1.facing = 1) ∧
    (∀ (fuel : ℕ) (prev : List CharacterState) (st : CharacterState)
       (m : MapChunk) (rng' : Rng) (wog : Bool) (p : List CharacterState),
      (attemptLoop P columns fallLimit jumpLimit res fuel prev st m rng' wog).result = some p →
      ∃ q, p = prev ++ q) := by
  refine ⟨?_, ?_, ?_, ?_⟩
  · unfold selectInputForState
    simp only []
    repeat' split
    all_goals exact ⟨rfl, rfl, rfl, rfl, rfl, rfl⟩
  · intro h
    unfold selectInputForState
    simp only []
    repeat' split
    all_goals first
      | rfl
      | exact absurd (by assumption) h
  · intro h
    unfold selectInputForState
    simp only []
    repeat' split
    all_goals first
      | exact Or.inl h
      | exact Or.inr (Or.inl rfl)
      | exact Or.inr (Or.inr rfl)
      | exact absurd h (by assumption)
  · intro fuel
    induction fuel with
    | zero =>
      intro prev st m rng' wog p h
      simp [attemptLoop] at h
    | succ n ih =>
      intro prev st m rng' wog p h
      unfold attemptLoop at h
      simp only at h
      split at h
      · simp only [Option.some.injEq] at h
        subst h
        exact ⟨_, by rw [List.append_assoc]⟩
      · obtain ⟨q, hq⟩ := ih _ _ _ _ _ _ h
        rw [hq, List.append_assoc]
        exact ⟨_, rfl⟩

/-- Concrete neutral-facing state for the C8 counterexample. -/
def c8State : CharacterState := { facing := 0 }

/-- C8, claim as stated, fails: the input sampler mutates the snapshot
already appended to the path.  With a neutral facing, the default move
probability and a random stream of zeros, selectInputForState writes
facing -1 into the state whose facing was 0. -/
theorem c8_counterexample :
    (selectInputForState wPather c8State 0 wRng).2.1.facing = -1 ∧
    c8State.facing = 0 := by
  constructor
  · unfold selectInputForState wPather c8State wRng Rng.next
    norm_num
  · rfl

/-- Filling a one-row rectangle (both vertical bounds equal, at a
non-negative row) leaves every strictly lower row unchanged: the falsy
quirk cannot widen a degenerate rectangle whose bounds agree. -/
lemma getTileAt_fill_row (m : MapChunk) (t : Tile) (x0 x1 y0 a b : ℤ)
    (hy0 : 0 ≤ y0) (hb : y0 < b) :
    (m.fill t x0 y0 x1 y0).getTileAt a b = m.getTileAt a b := by
  have hm : max 0 y0 = y0 := max_eq_right hy0
  unfold MapChunk.fill
  simp only []
  split
  · rfl
  · split
    · rfl
    · next h1 h2 =>
      unfold MapChunk.getTileAt
      simp only
      by_cases hA : a < 0 ∨ m.columns ≤ a
      · rw [if_pos hA, if_pos hA]
      · by_cases hB : b < 0 ∨ m.rows ≤ b
        · rw [if_neg hA, if_neg hA, if_pos hB, if_pos hB]
        · rw [if_neg hA, if_neg hA, if_neg hB, if_neg hB]
          rw [if_neg ?hc]
          rintro ⟨-, -, -, h4⟩
          rw [hm] at h2 h4
          revert h4
          repeat' split
          all_goals (intro h4; omega)

/-- C3 (amended): after one simulated frame, the footprint rectangle
marked with the player reservation depends on the vertical velocity.
When the character is not falling, every in-bounds cell of the full
bounds rectangle is marked.  When the character is falling, the top row
of the bounds is marked, but every cell in a row strictly below the top
row is left exactly as the pre-marking frame left it, so the lower part
of the footprint (down to the bottom row) is not marked. -/
theorem c3_footprint_marking (P : Pather) (fallLimit : ℤ) (jumpLimit : ℚ)
    (pathLen : ℕ) (state : CharacterState) (m : MapChunk) (rng : Rng)
    (wog : Bool) (a b : ℤ) :
    ((attemptStepCore P fallLimit jumpLimit pathLen state m rng wog).state.velY ≤ 0 →
      (attemptStepCore P fallLimit jumpLimit pathLen state m rng wog).left ≤ a →
      a ≤ (attemptStepCore P fallLimit jumpLimit pathLen state m rng wog).right →
      (attemptStepCore P fallLimit jumpLimit pathLen state m rng wog).top ≤ b →
      b ≤ (attemptStepCore P fallLimit jumpLimit pathLen state m rng wog).bottom →
      0 ≤ a →
      a < (attemptStepCore P fallLimit jumpLimit pathLen state m rng wog).map.columns →
      0 ≤ b →
      b < (attemptStepCore P fallLimit jumpLimit pathLen state m rng wog).map.rows →
      (attemptStep P fallLimit jumpLimit pathLen state m rng wog).map.getTileAt a b
        = Tile.playerReservation) ∧
    (0 < (attemptStepCore P fallLimit jumpLimit pathLen state m rng wog).state.velY →
      (attemptStepCore P fallLimit jumpLimit pathLen state m rng wog).left ≤ a →
      a ≤ (attemptStepCore P fallLimit jumpLimit pathLen state m rng wog).right →
      b = (attemptStepCore P fallLimit jumpLimit pathLen state m rng wog).top →
      0 ≤ a →
      a < (attemptStepCore P fallLimit jumpLimit pathLen state m rng wog).map.columns →
      0 ≤ b →
      b < (attemptStepCore P fallLimit jumpLimit pathLen state m rng wog).map.rows →
      (attemptStep P fallLimit jumpLimit pathLen state m rng wog).map.getTileAt a b
        = Tile.playerReservation) ∧
    (0 < (attemptStepCore P fallLimit jumpLimit pathLen state m rng wog).state.velY →
      0 ≤ (attemptStepCore P fallLimit jumpLimit pathLen state m rng wog).top →
      (attemptStepCore P fallLimit jumpLimit pathLen state m rng wog).top < b →
      (attemptStep P fallLimit jumpLimit pathLen state m rng wog).map.getTileAt a b
        = (attemptStepCore P fallLimit jumpLimit pathLen state m rng wog).map.getTileAt a b) := by
  refine ⟨?_, ?_, ?_⟩
  · intro hv h1 h2 h3 h4 ha0 hac hb0 hbr
    unfold attemptStep
    simp only []
    rw [if_neg (not_lt.mpr hv)]
    exact getTileAt_fill_in _ _ _ _ _ _ _ _ ha0 hac hb0 hbr h1 h2 h3 h4
  · intro hv h1 h2 hb ha0 hac hb0 hbr
    unfold attemptStep
    simp only []
    rw [if_pos hv]
    subst hb
    exact getTileAt_fill_in _ _ _ _ _ _ _ _ ha0 hac hb0 hbr h1 h2 le_rfl le_rfl
  · intro hv ht hb
    unfold attemptStep
    simp only []
    rw [if_pos hv]
    exact getTileAt_fill_row _ _ _ _ _ _ _ ht hb

/-- Concrete mid-air falling state for the C3 counterexample. -/
def c3State : CharacterState :=
  { x := 5, y := 103/10, velX := 0, velY := 3,
    framesSinceGround := 5, framesOnGround := 0, facing := 1 }

/-- Concrete empty 40 by 20 map for the C3 counterexample. -/
def c3Map : MapChunk :=
  { columns := 40, rows := 20, tiles := fun _ _ => Tile.none }

/-- The state after one physics step from the C3 state. -/
def c3NewState : CharacterState :=
  { x := 3001/600, y := 18737/1800, velX := 1/20, velY := 197/60,
    framesSinceGround := 6, framesOnGround := 0, facing := 1 }

lemma c3Map_getTileAt (a b : ℤ) : c3Map.getTileAt a b = Tile.none := by
  unfold MapChunk.getTileAt c3Map
  simp only []
  repeat' split
  all_goals rfl

lemma c3Map_solidFree : solidFree c3Map := by
  intro a b
  unfold MapChunk.isSolid
  rw [c3Map_getTileAt]

lemma c3_floor_x : ⌊(3001:ℚ)/600⌋ = 5 := Int.floor_eq_iff.mpr (by norm_num)

lemma c3_ceil_x : ⌈(599:ℚ)/120⌉ = 5 := Int.ceil_eq_iff.mpr (by norm_num)

lemma c3_floor_y : ⌊(18737:ℚ)/1800⌋ = 10 := Int.floor_eq_iff.mpr (by norm_num)

lemma c3_ceil_y : ⌈(18719:ℚ)/1800⌉ = 11 := Int.ceil_eq_iff.mpr (by norm_num)

lemma c3_sel : selectInputForState wPather c3State 4 wRng =
    ({ x := 1, jump := false }, c3State, { vals := fun _ => 0, idx := 1 }) := by
  unfold selectInputForState wPather c3State wRng Rng.next CharacterState.isOnGround
  norm_num

lemma c3_step : wPather.ctrl.step c3State { x := 1, jump := false } = c3NewState := by
  unfold wPather CharacterController.step CharacterState.accelerateToward
    CharacterState.step CharacterState.isOnGround CharacterState.isFalling
    CharacterState.jump qsign dt c3State c3NewState
  norm_num

lemma c3_collision : wPather.ctrl.handleCollision c3NewState c3Map =
    (c3NewState, { collided := false, left := 5, right := 5, top := 10, bottom := 11 }) := by
  rw [handleCollision_solidFree _ _ _ c3Map_solidFree]
  norm_num [c3NewState, CharacterState.leftTile, CharacterState.rightTile,
    CharacterState.topTile, CharacterState.bottomTile, wPather,
    c3_floor_x, c3_ceil_x, c3_floor_y, c3_ceil_y]

lemma c3_core : attemptStepCore wPather 18 4 100 c3State c3Map wRng false =
    { movedState := c3State, state := c3NewState, map := c3Map,
      rng := { vals := fun _ => 0, idx := 2 }, wasOnGround := false,
      left := 5, top := 10, right := 5, bottom := 11 } := by
  unfold attemptStepCore
  simp only []
  rw [c3_sel]
  simp only [Bool.false_and]
  rw [c3_step, c3_collision]
  simp only []
  norm_num [CharacterState.isFalling, c3NewState, wPather, Rng.next]

/-- C3, claim as stated, fails: on a frame where the character is
falling, the cell at the bottom row of the resolved footprint bounds is
inside the footprint yet is not marked with the player reservation (the
fill stops at the top row while falling). -/
theorem c3_counterexample :
    0 < (attemptStepCore wPather 18 4 100 c3State c3Map wRng false).state.velY ∧
    (attemptStepCore wPather 18 4 100 c3State c3Map wRng false).left ≤ 5 ∧
    5 ≤ (attemptStepCore wPather 18 4 100 c3State c3Map wRng false).right ∧
    (attemptStepCore wPather 18 4 100 c3State c3Map wRng false).top ≤ 11 ∧
    11 ≤ (attemptStepCore wPather 18 4 100 c3State c3Map wRng false).bottom ∧
    (attemptStep wPather 18 4 100 c3State c3Map wRng false).map.getTileAt 5 11
      = Tile.none := by
  refine ⟨?_, ?_, ?_, ?_, ?_, ?_⟩
  · rw [c3_core]; norm_num [c3NewState]
  · rw [c3_core]
  · rw [c3_core]
  · rw [c3_core]; norm_num
  · rw [c3_core]
  · have hfill : (attemptStep wPather 18 4 100 c3State c3Map wRng false).map =
        c3Map.fill Tile.playerReservation 5 10 5 10 := by
      unfold attemptStep
      simp only []
      rw [c3_core]
      simp only []
      norm_num [c3NewState]
    rw [hfill, getTileAt_fill_row c3Map Tile.playerReservation 5 5 10 5 11
      (by norm_num) (by norm_num)]
    rfl

/-!
Map skinner (skinner.js class MapSkinner): converts path annotations
into tile geometry in three passes over the shared map.  The in-place
mutation of the map, the random stream and the bookkeeping arrays are
threaded explicitly.  The JavaScript tilesFromFloor counter starts at
negative infinity; it is modelled as an Option, where none (negative
infinity) fails every comparison, as in the source.  The clearBelow
array starts with every entry undefined; an undefined entry is none,
whose comparison with a number is false, as in the source.
-/

/-- Tuning fields of the skinner (skinner.js lines 4-14). -/
structure SkinnerParams where
  platformExtendProbability : ℚ := 1
  powerUpProbability : ℚ := 1/5
  coinProbability : ℚ := 1/5
  enemyProbability : ℚ := 3/10
deriving DecidableEq, Repr

/-- State shared by the skinning passes: the map being populated, the
random stream, and the bookkeeping arrays of skinMap (skinner.js
lines 26-35). -/
structure SkinState where
  map : MapChunk
  rng : Rng
  columnsSinceEnemy : ℤ → ℤ
  clearBelow : ℤ → Option ℤ
  solids : List (ℤ × ℤ)

/-- The JavaScript comparison tilesFromFloor > -1, false at negative
infinity. -/
def tffAboveFloor : Option ℤ → Bool
  | some k => decide (-1 < k)
  | Option.none => false

/-- The enemy-or-coin part of one cell of the first skinning pass
(skinner.js lines 74-88): tiles immediately above a floor can become
enemies (where there is reachable space above and no recent enemy in
the row) or coins; a failed enemy roll falls through to the coin roll,
consuming a second random value. -/
def skinCellGround (S : SkinnerParams) (x y : ℤ) (st : SkinState)
    (cse : ℤ → ℤ) (tff : Option ℤ) (rng0 : Rng) : SkinState :=
  if tff = some 1 then
    let enemy :=
      if st.map.getTileAt x (y-1) = Tile.playerReservation ∧ 2 < cse y then
        let r := rng0.next
        (decide (r.1 < S.enemyProbability), r.2)
      else (false, rng0)
    if enemy.1 then
      { st with map := st.map.place Tile.pinkSlime x y, rng := enemy.2,
                columnsSinceEnemy := fun z => if z = y then 0 else cse z }
    else
      let r := enemy.2.next
      if r.1 < S.coinProbability then
        { st with map := st.map.place Tile.coin x y, rng := r.2,
                  columnsSinceEnemy := cse }
      else { st with rng := r.2, columnsSinceEnemy := cse }
  else { st with rng := rng0, columnsSinceEnemy := cse }

/-- The tile-placement part of one cell of the first skinning pass
(skinner.js lines 55-90), after the counters were incremented: build a
platform or plateau at a solid reservation, otherwise maybe place a
power-up box, an enemy, or a coin.  Returns the updated state and the
new tilesFromFloor counter. -/
def skinCellPlace (S : SkinnerParams) (powerupHeight columns rows x y : ℤ)
    (st : SkinState) (foundContent : Bool) (tff : Option ℤ)
    (cse : ℤ → ℤ) (tile : Tile) : SkinState × Option ℤ :=
  if tile = Tile.solidReservation then
    let bottom := if foundContent then y else rows - 1
    ({ st with map := st.map.fill Tile.solid x y x bottom,
               columnsSinceEnemy := cse,
               solids := st.solids ++ [(x, y)] }, some 0)
  else if tffAboveFloor tff && decide (2 < x) && decide (x < columns - 2) then
    if tff = some powerupHeight ∧ tile ≠ Tile.playerReservation then
      let r := st.rng.next
      if r.1 < S.powerUpProbability then
        ({ st with map := st.map.place Tile.exclamationBox x y, rng := r.2,
                   columnsSinceEnemy := cse }, tff)
      else (skinCellGround S x y st cse tff r.2, tff)
    else (skinCellGround S x y st cse tff st.rng, tff)
  else ({ st with columnsSinceEnemy := cse }, tff)

/-- One cell of the first skinning pass (skinner.js lines 50-97):
increment the counters, read the tile, place tiles, then update the
clearBelow / foundContent bookkeeping.  Returns the updated state, the
new foundContent flag and the new tilesFromFloor counter. -/
def skinCell (S : SkinnerParams) (powerupHeight columns rows x y : ℤ)
    (st : SkinState) (foundContent : Bool) (tilesFromFloor : Option ℤ) :
    SkinState × Bool × Option ℤ :=
  let tff := tilesFromFloor.map (fun k => k + 1)
  let cse := fun z : ℤ =>
    if z = y then st.columnsSinceEnemy z + 1 else st.columnsSinceEnemy z
  let tile := st.map.getTileAt x y
  let placed := skinCellPlace S powerupHeight columns rows x y st foundContent tff cse tile
  if foundContent then (placed.1, true, placed.2)
  else
    ({ placed.1 with clearBelow := fun c =>
        if c = x then some y else placed.1.clearBelow c },
      decide (tile ≠ Tile.none), placed.2)

/-- The inner loop of the first skinning pass (skinner.js line 49):
one column, bottom row first.  The fuel argument is the number of rows
left to scan; the next row scanned is fuel - 1. -/
def skinColumn (S : SkinnerParams) (powerupHeight columns rows x : ℤ) :
    ℕ → SkinState → Bool → Option ℤ → SkinState
  | 0, st, _, _ => st
  | n+1, st, fc, tff =>
    let r := skinCell S powerupHeight columns rows x (n : ℤ) st fc tff
    skinColumn S powerupHeight columns rows x n r.1 r.2.1 r.2.2

/-- The outer loop of the first skinning pass (skinner.js line 41):
left to right over the columns, each column starting with no content
found and the floor infinitely far away. -/
def skinPass1 (S : SkinnerParams) (powerupHeight columns rows : ℤ) :
    ℕ → ℤ → SkinState → SkinState
  | 0, _, st => st
  | k+1, x, st =>
    skinPass1 S powerupHeight columns rows k (x+1)
      (skinColumn S powerupHeight columns rows x rows.toNat st false Option.none)

/-- The JavaScript comparison clearBelow[c] <= v, false at an undefined
entry. -/
def cbLE : Option ℤ → ℤ → Bool
  | some c, v => decide (c ≤ v)
  | Option.none, _ => false

/-- Left half of the platform-extension pass for one solid reservation
(skinner.js lines 106-110). -/
def extendLeft (S : SkinnerParams) (rows : ℤ) (clearBelow : ℤ → Option ℤ)
    (mr : MapChunk × Rng) (sx sy : ℤ) : MapChunk × Rng :=
  if 0 < sx ∧ mr.1.getTileAt (sx-1) sy = Tile.none ∧
     mr.1.isSolid (sx-2) sy = false then
    let r := mr.2.next
    if r.1 < S.platformExtendProbability then
      let bottom := if cbLE (clearBelow (sx-1)) sy then rows - 1 else sy
      (mr.1.fill Tile.solid (sx-1) sy (sx-1) bottom, r.2)
    else (mr.1, r.2)
  else mr

/-- Right half of the platform-extension pass for one solid reservation
(skinner.js lines 113-117). -/
def extendRight (S : SkinnerParams) (columns rows : ℤ)
    (clearBelow : ℤ → Option ℤ) (mr : MapChunk × Rng) (sx sy : ℤ) :
    MapChunk × Rng :=
  if sx < columns - 1 ∧ mr.1.getTileAt (sx+1) sy = Tile.none ∧
     mr.1.isSolid (sx+2) sy = false then
    let r := mr.2.next
    if r.1 < S.platformExtendProbability then
      let bottom := if cbLE (clearBelow (sx+1)) sy then rows - 1 else sy
      (mr.1.fill Tile.solid (sx+1) sy (sx+1) bottom, r.2)
    else (mr.1, r.2)
  else mr

/-- The platform-extension pass (skinner.js lines 103-119): for each
solid reservation, in order, consider extending it one tile to the left
and then one tile to the right. -/
def skinPass2 (S : SkinnerParams) (columns rows : ℤ)
    (clearBelow : ℤ → Option ℤ) :
    List (ℤ × ℤ) → MapChunk × Rng → MapChunk × Rng
  | [], mr => mr
  | s :: rest, mr =>
    skinPass2 S columns rows clearBelow rest
      (extendRight S columns rows clearBelow
        (extendLeft S rows clearBelow mr s.1 s.2) s.1 s.2)

/-- Coin decoration of the airborne part of one jump (skinner.js
lines 140-151): place coins at path points that round to a nearby tile
cell.  The first argument is the path index, the second the number of
points left. -/
def coinTrail (S : SkinnerParams) (path : List CharacterState) :
    ℕ → ℕ → MapChunk × Rng → MapChunk × Rng
  | _, 0, mr => mr
  | j, n+1, mr =>
    let here := path.getD j {}
    let cx := round here.x
    let cy := round here.y
    let deviation := (here.x - cx) * (here.x - cx) + (here.y - cy) * (here.y - cy)
    let mr' :=
      if deviation < 1/10 then
        let r := mr.2.next
        if r.1 < S.coinProbability then (mr.1.place Tile.coin cx cy, r.2)
        else (mr.1, r.2)
      else mr
    coinTrail S path (j+1) n mr'

/-- The jump-decoration pass (skinner.js lines 125-156): scan the path
for landings far enough from their launch point and decorate those
jumps with coins.  The fuel is the number of path entries left, i the
current index, jumpStart the index where the current jump started or
-1. -/
def skinPass3 (S : SkinnerParams) (path : List CharacterState) :
    ℕ → ℕ → ℤ → MapChunk × Rng → MapChunk × Rng
  | 0, _, _, mr => mr
  | n+1, i, jumpStart, mr =>
    let state := path.getD i {}
    if state.framesSinceGround = 1 then
      skinPass3 S path n (i+1) (i : ℤ) mr
    else if 0 ≤ jumpStart ∧ state.framesSinceGround = 0 then
      let start := path.getD jumpStart.toNat {}
      let distance := |state.x - start.x|
      let mr' :=
        if 3 < distance ∨ 1/2 < |start.y - state.y| then
          coinTrail S path jumpStart.toNat (i - jumpStart.toNat) mr
        else mr
      skinPass3 S path n (i+1) (-1) mr'
    else skinPass3 S path n (i+1) jumpStart mr

/-- Populates a map with tiles, given a path annotation and character
info (skinner.js skinMap, lines 22-157): the bottom-up column scan,
then platform extension, then jump decoration. -/
def skinMap (S : SkinnerParams) (m : MapChunk) (path : List CharacterState)
    (ctrl : CharacterController) (rng : Rng) : MapChunk :=
  let powerupHeight := round (ctrl.jumpHeight + ctrl.height)
  let st1 := skinPass1 S powerupHeight m.columns m.rows m.columns.toNat 0
    { map := m, rng := rng, columnsSinceEnemy := fun _ => 0,
      clearBelow := fun _ => Option.none, solids := [] }
  let mr2 := skinPass2 S m.columns m.rows st1.clearBelow st1.solids
    (st1.map, st1.rng)
  (skinPass3 S path path.length 0 (-1) mr2).1

/-- A place changes at most the addressed cell, and then to the placed
tile. -/
lemma getTileAt_place_localized (m : MapChunk) (t : Tile) (x y a b : ℤ) :
    (m.place t x y).getTileAt a b = m.getTileAt a b ∨
    ((m.place t x y).getTileAt a b = t ∧ a = x ∧ b = y) := by
  unfold MapChunk.place MapChunk.getTileAt
  split
  · simp only
    split
    · exact Or.inl rfl
    · split
      · exact Or.inl rfl
      · split
        · next h => exact Or.inr ⟨rfl, h.1, h.2⟩
        · exact Or.inl rfl
  · exact Or.inl rfl

/-- A single-column fill with non-negative bounds changes cells only in
its own column, at or below the requested top row, and at most down to
the requested bottom row (or, through the falsy quirk, only the top row
itself). -/
lemma getTileAt_fill_col (m : MapChunk) (t : Tile) (x0 y0 y1 a b : ℤ)
    (hx0 : 0 ≤ x0) (hy0 : 0 ≤ y0) :
    (m.fill t x0 y0 x0 y1).getTileAt a b = m.getTileAt a b ∨
    ((m.fill t x0 y0 x0 y1).getTileAt a b = t ∧ a = x0 ∧ y0 ≤ b ∧
      (b ≤ y1 ∨ b = y0)) := by
  have hmx : max 0 x0 = x0 := max_eq_right hx0
  have hmy : max 0 y0 = y0 := max_eq_right hy0
  unfold MapChunk.fill
  simp only []
  split
  · exact Or.inl rfl
  · split
    · exact Or.inl rfl
    · next h1 h2 =>
      unfold MapChunk.getTileAt
      simp only
      by_cases hA : a < 0 ∨ m.columns ≤ a
      · rw [if_pos hA, if_pos hA]; exact Or.inl rfl
      · by_cases hB : b < 0 ∨ m.rows ≤ b
        · rw [if_neg hA, if_neg hA, if_pos hB, if_pos hB]; exact Or.inl rfl
        · rw [if_neg hA, if_neg hA, if_neg hB, if_neg hB]
          rw [hmx, hmy]
          rw [hmx] at h1
          rw [hmy] at h2
          repeat' split
          all_goals try exact Or.inl rfl
          all_goals exact Or.inr ⟨rfl, by omega, by omega, by omega⟩

/-- Path preservation invariant for the skinner: every cell that held a
player reservation in the original map holds one of the three
non-solid tiles the skinner may leave there. -/
def pathSafe (m0 mc : MapChunk) : Prop :=
  ∀ a b, m0.getTileAt a b = Tile.playerReservation →
    mc.getTileAt a b = Tile.playerReservation ∨ mc.getTileAt a b = Tile.coin ∨
    mc.getTileAt a b = Tile.pinkSlime

/-- The skinner never writes the empty tile, so an empty cell was empty
in the original map. -/
def noneReflect (m0 mc : MapChunk) : Prop :=
  ∀ a b, mc.getTileAt a b = Tile.none → m0.getTileAt a b = Tile.none

lemma pathSafe_place_nonsolid (m0 mc : MapChunk) (t : Tile) (x y : ℤ)
    (h : pathSafe m0 mc) (ht : t = Tile.coin ∨ t = Tile.pinkSlime) :
    pathSafe m0 (mc.place t x y) := by
  intro a b hP
  rcases getTileAt_place_localized mc t x y a b with he | ⟨he, _, _⟩
  · rw [he]; exact h a b hP
  · rw [he]
    rcases ht with ht | ht
    · exact Or.inr (Or.inl ht)
    · exact Or.inr (Or.inr ht)

lemma pathSafe_place_guard (m0 mc : MapChunk) (t : Tile) (x y : ℤ)
    (h : pathSafe m0 mc) (hg : m0.getTileAt x y ≠ Tile.playerReservation) :
    pathSafe m0 (mc.place t x y) := by
  intro a b hP
  rcases getTileAt_place_localized mc t x y a b with he | ⟨he, hax, hby⟩
  · rw [he]; exact h a b hP
  · subst hax; subst hby; exact absurd hP hg

lemma noneReflect_place (m0 mc : MapChunk) (t : Tile) (x y : ℤ)
    (h : noneReflect m0 mc) (ht : t ≠ Tile.none) :
    noneReflect m0 (mc.place t x y) := by
  intro a b hN
  rcases getTileAt_place_localized mc t x y a b with he | ⟨he, _, _⟩
  · exact h a b (he ▸ hN)
  · exact absurd (he ▸ hN) ht

lemma pathSafe_fill_col (m0 mc : MapChunk) (x0 y0 y1 : ℤ)
    (hx0 : 0 ≤ x0) (hy0 : 0 ≤ y0) (h : pathSafe m0 mc)
    (htop : m0.getTileAt x0 y0 ≠ Tile.playerReservation)
    (hbelow : ∀ b, y0 < b → b ≤ y1 → m0.getTileAt x0 b = Tile.none) :
    pathSafe m0 (mc.fill Tile.solid x0 y0 x0 y1) := by
  intro a b hP
  rcases getTileAt_fill_col mc Tile.solid x0 y0 y1 a b hx0 hy0 with
    he | ⟨he, hax, hyb, hdisj⟩
  · rw [he]; exact h a b hP
  · subst hax
    exfalso
    by_cases hb : b = y0
    · subst hb; exact htop hP
    · rcases hdisj with hle | hbe
      · rw [hbelow b (by omega) hle] at hP; exact Tile.noConfusion hP
      · exact hb hbe

lemma noneReflect_fill_col (m0 mc : MapChunk) (t : Tile) (x0 y0 y1 : ℤ)
    (hx0 : 0 ≤ x0) (hy0 : 0 ≤ y0) (h : noneReflect m0 mc)
    (ht : t ≠ Tile.none) :
    noneReflect m0 (mc.fill t x0 y0 x0 y1) := by
  intro a b hN
  rcases getTileAt_fill_col mc t x0 y0 y1 a b hx0 hy0 with he | ⟨he, _, _, _⟩
  · exact h a b (he ▸ hN)
  · exact absurd (he ▸ hN) ht

lemma untouched_place (mc : MapChunk) (t : Tile) (x y a b : ℤ)
    (hne : ¬ (a = x ∧ b = y)) :
    (mc.place t x y).getTileAt a b = mc.getTileAt a b := by
  rcases getTileAt_place_localized mc t x y a b with he | ⟨_, hax, hby⟩
  · exact he
  · exact absurd ⟨hax, hby⟩ hne

lemma untouched_fill_col (mc : MapChunk) (t : Tile) (x0 y0 y1 a b : ℤ)
    (hx0 : 0 ≤ x0) (hy0 : 0 ≤ y0) (hne : ¬ (a = x0 ∧ y0 ≤ b)) :
    (mc.fill t x0 y0 x0 y1).getTileAt a b = mc.getTileAt a b := by
  rcases getTileAt_fill_col mc t x0 y0 y1 a b hx0 hy0 with he | ⟨_, hax, hyb, _⟩
  · exact he
  · exact absurd ⟨hax, hyb⟩ hne

/-- The enemy-or-coin step preserves path safety: it places only
non-solid tiles, changes at most the current cell, and leaves the
bookkeeping lists alone. -/
lemma skinCellGround_inv (S : SkinnerParams) (m0 : MapChunk) (x y : ℤ)
    (st : SkinState) (cse : ℤ → ℤ) (tff : Option ℤ) (rng0 : Rng)
    (hA : pathSafe m0 st.map) (hB : noneReflect m0 st.map) :
    pathSafe m0 (skinCellGround S x y st cse tff rng0).map ∧
    noneReflect m0 (skinCellGround S x y st cse tff rng0).map ∧
    (∀ a b, ¬ (a = x ∧ b = y) →
      (skinCellGround S x y st cse tff rng0).map.getTileAt a b =
        st.map.getTileAt a b) ∧
    (skinCellGround S x y st cse tff rng0).clearBelow = st.clearBelow ∧
    (skinCellGround S x y st cse tff rng0).solids = st.solids := by
  unfold skinCellGround
  simp only []
  repeat' split
  all_goals refine ⟨?_, ?_, ?_, rfl, rfl⟩
  all_goals first
    | exact pathSafe_place_nonsolid _ _ _ _ _ hA (Or.inr rfl)
    | exact pathSafe_place_nonsolid _ _ _ _ _ hA (Or.inl rfl)
    | exact hA
    | exact noneReflect_place _ _ _ _ _ hB (fun hcon => Tile.noConfusion hcon)
    | exact hB
    | (intro a b hne; exact untouched_place _ _ _ _ _ _ hne)
    | (intro a b hne; rfl)

/-- The tile-placement step of one first-pass cell preserves path
safety: a platform or plateau grows only through the solid-reservation
cell itself and originally empty cells below it, a power-up box is
guarded away from player reservations, and enemies and coins are
non-solid.  Cells in other columns or above the current row are
untouched, the clearBelow array is untouched, and recorded solid
coordinates stay non-negative. -/
lemma skinCellPlace_inv (S : SkinnerParams) (m0 : MapChunk)
    (ph columns x y : ℤ) (st : SkinState) (fc : Bool) (tff : Option ℤ)
    (cse : ℤ → ℤ) (hx : 0 ≤ x) (hy : 0 ≤ y)
    (hA : pathSafe m0 st.map) (hB : noneReflect m0 st.map)
    (hread : st.map.getTileAt x y = m0.getTileAt x y)
    (hD : fc = false → ∀ b, y + 1 ≤ b → m0.getTileAt x b = Tile.none)
    (hF : ∀ p ∈ st.solids, 0 ≤ p.1 ∧ 0 ≤ p.2) :
    pathSafe m0
      (skinCellPlace S ph columns m0.rows x y st fc tff cse
        (st.map.getTileAt x y)).1.map ∧
    noneReflect m0
      (skinCellPlace S ph columns m0.rows x y st fc tff cse
        (st.map.getTileAt x y)).1.map ∧
    (∀ a b, ¬ (a = x ∧ y ≤ b) →
      (skinCellPlace S ph columns m0.rows x y st fc tff cse
        (st.map.getTileAt x y)).1.map.getTileAt a b = st.map.getTileAt a b) ∧
    (skinCellPlace S ph columns m0.rows x y st fc tff cse
      (st.map.getTileAt x y)).1.clearBelow = st.clearBelow ∧
    (∀ p ∈ (skinCellPlace S ph columns m0.rows x y st fc tff cse
      (st.map.getTileAt x y)).1.solids, 0 ≤ p.1 ∧ 0 ≤ p.2) := by
  unfold skinCellPlace
  simp only []
  split
  · next htile =>
    rw [hread] at htile
    refine ⟨?_, ?_, ?_, rfl, ?_⟩
    · apply pathSafe_fill_col m0 st.map x y _ hx hy hA
      · rw [htile]; intro hcon; exact Tile.noConfusion hcon
      · intro b hb1 hb2
        cases hfc : fc with
        | false => exact hD hfc b (by omega)
        | true =>
          rw [hfc, if_pos rfl] at hb2
          exact absurd hb2 (not_le.mpr hb1)
    · exact noneReflect_fill_col m0 st.map Tile.solid x y _ hx hy hB
        (fun hcon => Tile.noConfusion hcon)
    · intro a b hne
      exact untouched_fill_col st.map Tile.solid x y _ a b hx hy hne
    · intro p hp
      rcases List.mem_append.mp hp with h | h
      · exact hF p h
      · rw [List.mem_singleton] at h
        subst h
        exact ⟨hx, hy⟩
  · split
    · split
      · next hpre =>
        split
        · refine ⟨?_, ?_, ?_, rfl, hF⟩
          · apply pathSafe_place_guard m0 st.map Tile.exclamationBox x y hA
            rw [hread] at hpre
            exact hpre.2
          · exact noneReflect_place _ _ _ _ _ hB (fun hcon => Tile.noConfusion hcon)
          · intro a b hne
            exact untouched_place _ _ _ _ _ _
              (fun hc => hne ⟨hc.1, le_of_eq hc.2.symm⟩)
        · obtain ⟨g1, g2, g3, g4, g5⟩ :=
            skinCellGround_inv S m0 x y st cse tff st.rng.next.2 hA hB
          refine ⟨g1, g2, ?_, g4, ?_⟩
          · intro a b hne
            exact g3 a b (fun hc => hne ⟨hc.1, le_of_eq hc.2.symm⟩)
          · rw [g5]; exact hF
      · obtain ⟨g1, g2, g3, g4, g5⟩ :=
          skinCellGround_inv S m0 x y st cse tff st.rng hA hB
        refine ⟨g1, g2, ?_, g4, ?_⟩
        · intro a b hne
          exact g3 a b (fun hc => hne ⟨hc.1, le_of_eq hc.2.symm⟩)
        · rw [g5]; exact hF
    · exact ⟨hA, hB, fun a b _ => rfl, rfl, hF⟩

/-- One first-pass cell preserves the column-scan invariant: path
safety and none-reflection continue to hold, cells in later columns or
above the current row keep their original values, a still-false
foundContent flag certifies that everything at or below the next row
was originally empty, every clearBelow entry certifies original
emptiness strictly below it, and recorded solids stay non-negative. -/
lemma skinCell_inv (S : SkinnerParams) (m0 : MapChunk) (ph columns x : ℤ)
    (n : ℕ) (st : SkinState) (fc : Bool) (tff : Option ℤ) (hx : 0 ≤ x)
    (hA : pathSafe m0 st.map) (hB : noneReflect m0 st.map)
    (hC : ∀ a b, x < a ∨ (a = x ∧ b < (n:ℤ) + 1) →
      st.map.getTileAt a b = m0.getTileAt a b)
    (hD : fc = false → ∀ b, (n:ℤ) + 1 ≤ b → m0.getTileAt x b = Tile.none)
    (hE : ∀ c v, st.clearBelow c = some v → ∀ b, v < b →
      m0.getTileAt c b = Tile.none)
    (hF : ∀ p ∈ st.solids, 0 ≤ p.1 ∧ 0 ≤ p.2) :
    pathSafe m0 (skinCell S ph columns m0.rows x (n:ℤ) st fc tff).1.map ∧
    noneReflect m0 (skinCell S ph columns m0.rows x (n:ℤ) st fc tff).1.map ∧
    (∀ a b, x < a ∨ (a = x ∧ b < (n:ℤ)) →
      (skinCell S ph columns m0.rows x (n:ℤ) st fc tff).1.map.getTileAt a b =
        m0.getTileAt a b) ∧
    ((skinCell S ph columns m0.rows x (n:ℤ) st fc tff).2.1 = false →
      ∀ b, (n:ℤ) ≤ b → m0.getTileAt x b = Tile.none) ∧
    (∀ c v, (skinCell S ph columns m0.rows x (n:ℤ) st fc tff).1.clearBelow c
        = some v → ∀ b, v < b → m0.getTileAt c b = Tile.none) ∧
    (∀ p ∈ (skinCell S ph columns m0.rows x (n:ℤ) st fc tff).1.solids,
      0 ≤ p.1 ∧ 0 ≤ p.2) := by
  have hy : (0:ℤ) ≤ (n:ℤ) := Int.natCast_nonneg n
  have hread : st.map.getTileAt x (n:ℤ) = m0.getTileAt x (n:ℤ) :=
    hC x (n:ℤ) (Or.inr ⟨rfl, by omega⟩)
  obtain ⟨p1, p2, p3, p4, p5⟩ :=
    skinCellPlace_inv S m0 ph columns x (n:ℤ) st fc
      (tff.map (fun k => k + 1))
      (fun z => if z = (n:ℤ) then st.columnsSinceEnemy z + 1
        else st.columnsSinceEnemy z)
      hx hy hA hB hread hD hF
  unfold skinCell
  simp only []
  split
  · refine ⟨p1, p2, ?_, ?_, ?_, p5⟩
    · intro a b hab
      rw [p3 a b (by intro hc; rcases hab with h | ⟨h1, h2⟩ <;> omega)]
      refine hC a b ?_
      rcases hab with h | ⟨h1, h2⟩
      · exact Or.inl h
      · exact Or.inr ⟨h1, by omega⟩
    · intro hcon
      exact Bool.noConfusion hcon
    · intro c v hcv
      rw [p4] at hcv
      exact hE c v hcv
  · next hfc =>
    have hfc' : fc = false := by revert hfc; cases fc <;> simp
    refine ⟨p1, p2, ?_, ?_, ?_, p5⟩
    · intro a b hab
      rw [p3 a b (by intro hc; rcases hab with h | ⟨h1, h2⟩ <;> omega)]
      refine hC a b ?_
      rcases hab with h | ⟨h1, h2⟩
      · exact Or.inl h
      · exact Or.inr ⟨h1, by omega⟩
    · intro hdec b hb
      have htile : st.map.getTileAt x (n:ℤ) = Tile.none :=
        not_not.mp (of_decide_eq_false hdec)
      by_cases hbn : b = (n:ℤ)
      · subst hbn
        rw [← hread]
        exact htile
      · exact hD hfc' b (by omega)
    · intro c v hcv b hb
      simp only [] at hcv
      by_cases hcx : c = x
      · subst hcx
        rw [if_pos rfl] at hcv
        have hv : v = (n:ℤ) := by
          have := Option.some.inj hcv
          omega
        exact hD hfc' b (by omega)
      · rw [if_neg hcx, p4] at hcv
        exact hE c v hcv b hb

/-- The full bottom-up column scan preserves the invariant and leaves
later columns untouched. -/
lemma skinColumn_inv (S : SkinnerParams) (m0 : MapChunk)
    (ph columns x : ℤ) (hx : 0 ≤ x) :
    ∀ (n : ℕ) (st : SkinState) (fc : Bool) (tff : Option ℤ),
    pathSafe m0 st.map → noneReflect m0 st.map →
    (∀ a b, x < a ∨ (a = x ∧ b < (n:ℤ)) →
      st.map.getTileAt a b = m0.getTileAt a b) →
    (fc = false → ∀ b, (n:ℤ) ≤ b → m0.getTileAt x b = Tile.none) →
    (∀ c v, st.clearBelow c = some v → ∀ b, v < b →
      m0.getTileAt c b = Tile.none) →
    (∀ p ∈ st.solids, 0 ≤ p.1 ∧ 0 ≤ p.2) →
    pathSafe m0 (skinColumn S ph columns m0.rows x n st fc tff).map ∧
    noneReflect m0 (skinColumn S ph columns m0.rows x n st fc tff).map ∧
    (∀ a b, x < a →
      (skinColumn S ph columns m0.rows x n st fc tff).map.getTileAt a b =
        m0.getTileAt a b) ∧
    (∀ c v, (skinColumn S ph columns m0.rows x n st fc tff).clearBelow c
        = some v → ∀ b, v < b → m0.getTileAt c b = Tile.none) ∧
    (∀ p ∈ (skinColumn S ph columns m0.rows x n st fc tff).solids,
      0 ≤ p.1 ∧ 0 ≤ p.2) := by
  intro n
  induction n with
  | zero =>
    intro st fc tff hA hB hC hD hE hF
    exact ⟨hA, hB, fun a b h => hC a b (Or.inl h), hE, hF⟩
  | succ n ih =>
    intro st fc tff hA hB hC hD hE hF
    obtain ⟨q1, q2, q3, q4, q5, q6⟩ :=
      skinCell_inv S m0 ph columns x n st fc tff hx hA hB
        (fun a b hab => hC a b (by
          rcases hab with h | ⟨h1, h2⟩
          · exact Or.inl h
          · exact Or.inr ⟨h1, by omega⟩))
        (fun hfc b hb => hD hfc b (by omega)) hE hF
    exact ih (skinCell S ph columns m0.rows x (n:ℤ) st fc tff).1
      (skinCell S ph columns m0.rows x (n:ℤ) st fc tff).2.1
      (skinCell S ph columns m0.rows x (n:ℤ) st fc tff).2.2
      q1 q2 q3 q4 q5 q6

/-- The whole first pass preserves path safety, none-reflection, the
clearBelow certificates and the solid-coordinate bounds. -/
lemma skinPass1_inv (S : SkinnerParams) (m0 : MapChunk) (ph columns : ℤ) :
    ∀ (k : ℕ) (x : ℤ) (st : SkinState), 0 ≤ x →
    pathSafe m0 st.map → noneReflect m0 st.map →
    (∀ a b, x ≤ a → st.map.getTileAt a b = m0.getTileAt a b) →
    (∀ c v, st.clearBelow c = some v → ∀ b, v < b →
      m0.getTileAt c b = Tile.none) →
    (∀ p ∈ st.solids, 0 ≤ p.1 ∧ 0 ≤ p.2) →
    pathSafe m0 (skinPass1 S ph columns m0.rows k x st).map ∧
    noneReflect m0 (skinPass1 S ph columns m0.rows k x st).map ∧
    (∀ c v, (skinPass1 S ph columns m0.rows k x st).clearBelow c = some v →
      ∀ b, v < b → m0.getTileAt c b = Tile.none) ∧
    (∀ p ∈ (skinPass1 S ph columns m0.rows k x st).solids,
      0 ≤ p.1 ∧ 0 ≤ p.2) := by
  intro k
  induction k with
  | zero =>
    intro x st hx hA hB hC hE hF
    exact ⟨hA, hB, hE, hF⟩
  | succ k ih =>
    intro x st hx hA hB hC hE hF
    obtain ⟨q1, q2, q3, q4, q5⟩ :=
      skinColumn_inv S m0 ph columns x hx m0.rows.toNat st false Option.none
        hA hB
        (fun a b hab => hC a b (by rcases hab with h | ⟨h1, h2⟩ <;> omega))
        (fun _ b hb => getTileAt_oob m0 x b (by
          have := Int.self_le_toNat m0.rows
          omega))
        hE hF
    exact ih (x+1) _ (by omega) q1 q2 (fun a b ha => q3 a b (by omega)) q4 q5

/-- Extending a platform to the left fills only cells that were empty
in the original map. -/
lemma extendLeft_safe (S : SkinnerParams) (m0 : MapChunk)
    (cb : ℤ → Option ℤ) (mr : MapChunk × Rng) (sx sy : ℤ) (hy : 0 ≤ sy)
    (hA : pathSafe m0 mr.1) (hB : noneReflect m0 mr.1)
    (hE : ∀ c v, cb c = some v → ∀ b, v < b →
      m0.getTileAt c b = Tile.none) :
    pathSafe m0 (extendLeft S m0.rows cb mr sx sy).1 ∧
    noneReflect m0 (extendLeft S m0.rows cb mr sx sy).1 := by
  unfold extendLeft
  simp only []
  split
  · next hpre =>
    obtain ⟨hsx, hnone, -⟩ := hpre
    split
    · constructor
      · apply pathSafe_fill_col m0 mr.1 (sx-1) sy _ (by omega) hy hA
        · rw [hB (sx-1) sy hnone]
          intro hcon
          exact Tile.noConfusion hcon
        · intro b hb1 hb2
          revert hb2
          split
          · next hcb =>
            intro hb2
            rcases hv : cb (sx - 1) with - | v
            · rw [hv] at hcb
              exact absurd hcb (by simp [cbLE])
            · rw [hv] at hcb
              unfold cbLE at hcb
              exact hE (sx-1) v hv b
                (by have := of_decide_eq_true hcb; omega)
          · intro hb2
            exact absurd hb2 (not_le.mpr hb1)
      · exact noneReflect_fill_col m0 mr.1 Tile.solid (sx-1) sy _
          (by omega) hy hB (fun hcon => Tile.noConfusion hcon)
    · exact ⟨hA, hB⟩
  · exact ⟨hA, hB⟩

/-- Extending a platform to the right fills only cells that were empty
in the original map. -/
lemma extendRight_safe (S : SkinnerParams) (m0 : MapChunk) (columns : ℤ)
    (cb : ℤ → Option ℤ) (mr : MapChunk × Rng) (sx sy : ℤ)
    (hx : 0 ≤ sx) (hy : 0 ≤ sy)
    (hA : pathSafe m0 mr.1) (hB : noneReflect m0 mr.1)
    (hE : ∀ c v, cb c = some v → ∀ b, v < b →
      m0.getTileAt c b = Tile.none) :
    pathSafe m0 (extendRight S columns m0.rows cb mr sx sy).1 ∧
    noneReflect m0 (extendRight S columns m0.rows cb mr sx sy).1 := by
  unfold extendRight
  simp only []
  split
  · next hpre =>
    obtain ⟨hsx, hnone, -⟩ := hpre
    split
    · constructor
      · apply pathSafe_fill_col m0 mr.1 (sx+1) sy _ (by omega) hy hA
        · rw [hB (sx+1) sy hnone]
          intro hcon
          exact Tile.noConfusion hcon
        · intro b hb1 hb2
          revert hb2
          split
          · next hcb =>
            intro hb2
            rcases hv : cb (sx + 1) with - | v
            · rw [hv] at hcb
              exact absurd hcb (by simp [cbLE])
            · rw [hv] at hcb
              unfold cbLE at hcb
              exact hE (sx+1) v hv b
                (by have := of_decide_eq_true hcb; omega)
          · intro hb2
            exact absurd hb2 (not_le.mpr hb1)
      · exact noneReflect_fill_col m0 mr.1 Tile.solid (sx+1) sy _
          (by omega) hy hB (fun hcon => Tile.noConfusion hcon)
    · exact ⟨hA, hB⟩
  · exact ⟨hA, hB⟩

/-- The platform-extension pass preserves path safety. -/
lemma skinPass2_safe (S : SkinnerParams) (m0 : MapChunk) (columns : ℤ)
    (cb : ℤ → Option ℤ)
    (hE : ∀ c v, cb c = some v → ∀ b, v < b →
      m0.getTileAt c b = Tile.none) :
    ∀ (l : List (ℤ × ℤ)) (mr : MapChunk × Rng),
    (∀ p ∈ l, 0 ≤ p.1 ∧ 0 ≤ p.2) →
    pathSafe m0 mr.1 → noneReflect m0 mr.1 →
    pathSafe m0 (skinPass2 S columns m0.rows cb l mr).1 ∧
    noneReflect m0 (skinPass2 S columns m0.rows cb l mr).1 := by
  intro l
  induction l with
  | nil =>
    intro mr _ hA hB
    exact ⟨hA, hB⟩
  | cons s rest ih =>
    intro mr hl hA hB
    obtain ⟨hx, hy⟩ := hl s (List.mem_cons_self s rest)
    obtain ⟨l1, l2⟩ := extendLeft_safe S m0 cb mr s.1 s.2 hy hA hB hE
    obtain ⟨r1, r2⟩ := extendRight_safe S m0 columns cb
      (extendLeft S m0.rows cb mr s.1 s.2) s.1 s.2 hx hy l1 l2 hE
    exact ih _ (fun p hp => hl p (List.mem_cons_of_mem s hp)) r1 r2

/-- Decorating one jump arc places only coins. -/
lemma coinTrail_safe (S : SkinnerParams) (path : List CharacterState)
    (m0 : MapChunk) :
    ∀ (n j : ℕ) (mr : MapChunk × Rng), pathSafe m0 mr.1 →
    pathSafe m0 (coinTrail S path j n mr).1 := by
  intro n
  induction n with
  | zero =>
    intro j mr hA
    exact hA
  | succ n ih =>
    intro j mr hA
    refine ih (j+1) _ ?_
    simp only []
    split
    · split
      · exact pathSafe_place_nonsolid _ _ _ _ _ hA (Or.inl rfl)
      · exact hA
    · exact hA

/-- The jump-decoration pass preserves path safety. -/
lemma skinPass3_safe (S : SkinnerParams) (path : List CharacterState)
    (m0 : MapChunk) :
    ∀ (n i : ℕ) (js : ℤ) (mr : MapChunk × Rng), pathSafe m0 mr.1 →
    pathSafe m0 (skinPass3 S path n i js mr).1 := by
  intro n
  induction n with
  | zero =>
    intro i js mr hA
    exact hA
  | succ n ih =>
    intro i js mr hA
    unfold skinPass3
    simp only []
    split
    · exact ih (i+1) (i:ℤ) mr hA
    · split
      · refine ih (i+1) (-1) _ ?_
        split
        · exact coinTrail_safe S path m0 _ _ mr hA
        · exact hA
      · exact ih (i+1) js mr hA

/-- C2: skinning is path-preserving.  Every cell that carried a player
reservation before skinning is still non-solid after skinMap: the
bottom-up platform and plateau fill grows only through solid
reservations and originally empty cells, power-up boxes are explicitly
guarded away from player reservations, platform extension fills only
cells shown empty by the clearBelow bookkeeping, and all other
placements (enemies, coins) are non-solid tiles. -/
theorem c2_skinMap_path_preserving (S : SkinnerParams) (m : MapChunk)
    (path : List CharacterState) (ctrl : CharacterController) (rng : Rng)
    (x y : ℤ) (h : m.getTileAt x y = Tile.playerReservation) :
    (skinMap S m path ctrl rng).isSolid x y = false := by
  have hps : pathSafe m (skinMap S m path ctrl rng) := by
    unfold skinMap
    simp only []
    obtain ⟨a1, a2, a3, a4⟩ :=
      skinPass1_inv S m (round (ctrl.jumpHeight + ctrl.height)) m.columns
        m.columns.toNat 0
        { map := m, rng := rng, columnsSinceEnemy := fun _ => 0,
          clearBelow := fun _ => Option.none, solids := [] }
        le_rfl (fun a b hP => Or.inl hP) (fun a b hN => hN)
        (fun a b _ => rfl) (fun c v hcv => Option.noConfusion hcv)
        (fun p hp => absurd hp (List.not_mem_nil p))
    obtain ⟨b1, b2⟩ := skinPass2_safe S m m.columns
      (skinPass1 S (round (ctrl.jumpHeight + ctrl.height)) m.columns m.rows
        m.columns.toNat 0
        { map := m, rng := rng, columnsSinceEnemy := fun _ => 0,
          clearBelow := fun _ => Option.none, solids := [] }).clearBelow a3
      (skinPass1 S (round (ctrl.jumpHeight + ctrl.height)) m.columns m.rows
        m.columns.toNat 0
        { map := m, rng := rng, columnsSinceEnemy := fun _ => 0,
          clearBelow := fun _ => Option.none, solids := [] }).solids
      ((skinPass1 S (round (ctrl.jumpHeight + ctrl.height)) m.columns m.rows
        m.columns.toNat 0
        { map := m, rng := rng, columnsSinceEnemy := fun _ => 0,
          clearBelow := fun _ => Option.none, solids := [] }).map, (skinPass1 S (round (ctrl.jumpHeight + ctrl.height)) m.columns m.rows
        m.columns.toNat 0
        { map := m, rng := rng, columnsSinceEnemy := fun _ => 0,
          clearBelow := fun _ => Option.none, solids := [] }).rng) a4 a1 a2
    exact skinPass3_safe S path m path.length 0 (-1) _ b1
  rcases hps x y h with hv | hv | hv
  all_goals
    unfold MapChunk.isSolid
    rw [hv]

/-- Concrete one-cell map carrying a player reservation, for the C2
witness. -/
def c2Map : MapChunk :=
  { columns := 1, rows := 1, tiles := fun _ _ => Tile.playerReservation }

/-- Witness for C2: the reserved cell of a concrete map is still
non-solid after skinning. -/
theorem c2_witness :
    c2Map.getTileAt 0 0 = Tile.playerReservation ∧
    (skinMap {} c2Map [] {} wRng).isSolid 0 0 = false :=
  ⟨by decide, c2_skinMap_path_preserving {} c2Map [] {} wRng 0 0 (by decide)⟩
